import Mathlib

/-! # gitops-demo: a verification development

A shallow embedding of the Go service `mstephenholl/gitops-demo`
(`internal/version`, `internal/handlers`, `cmd/server`) together with the
parts of the Go standard library and of `go-chi/chi` that its handlers call.

* Go strings and byte slices are lists of bytes (`Bytes`).
* An HTTP handler is the tree of calls it makes on its `http.ResponseWriter`
  and on the logger (`Prog`); running such a tree against a concrete writer
  is `exec`.
* `ResponseRecorder` is `net/http/httptest.ResponseRecorder`, whose rules
  (first `WriteHeader` wins, headers frozen at that moment, implicit 200 on
  the first `Write`) are those of the response the client of a real
  `net/http` server receives.
* `encoding/json` is modelled down to the bytes for structs of strings:
  `appendString` on the encoding side, the scanner and `unquoteBytes` on the
  decoding side, over `utf8.DecodeRune` and `utf8.EncodeRune`.
* A handler that type-asserts its writer to `http.Flusher` is a
  `ProbingHandlerFunc`, run against a `DynWriter`, which says whether the
  dynamic type of the writer has a `Flush` method.
* `chi.Mux` is modelled for static patterns: `routeHTTP` picks the routing
  path and looks it up by equality.
* `run` is a function of which case of its `select` fires and of what
  `srv.Shutdown` returns.
-/

namespace GitopsDemo

/-! ## Go strings, errors, headers -/

/-- A Go string or byte slice: a sequence of bytes (natural numbers below 256). -/
abbrev Bytes := List Nat

/-- The bytes of an ASCII literal, as in the Go conversion of a string literal to a byte slice. -/
def ascii (s : String) : Bytes := s.data.map Char.toNat

/-- A Go error value. `wrap` is the result of `fmt.Errorf` with format
`pfx + "%w"`; `ErrServerClosed` is `http.ErrServerClosed`. -/
inductive GoError where
  | ErrServerClosed : GoError
  | other : Bytes → GoError
  | wrap : Bytes → GoError → GoError
  deriving DecidableEq

/-- The method `Error()` of an error value. -/
def GoError.Error : GoError → Bytes
  | .ErrServerClosed => ascii "http: Server closed"
  | .other msg => msg
  | .wrap pfx inner => pfx ++ inner.Error

/-- The function `errors.Is(err, http.ErrServerClosed)` on a non-nil error:
walks the chain of wrapped errors. -/
def GoError.IsServerClosed : GoError → Bool
  | .ErrServerClosed => true
  | .other _ => false
  | .wrap _ inner => inner.IsServerClosed

/-- The function `errors.Is(err, http.ErrServerClosed)`; a nil error is `none`. -/
def errorsIsServerClosed : Option GoError → Bool
  | none => false
  | some e => e.IsServerClosed

/-- An `http.Header`: a map from canonical header names to value lists, kept
as an association list with at most one entry per name in use. -/
abbrev Header := List (Bytes × List Bytes)

/-- The method `Header.Del`. -/
def Header.Del (h : Header) (key : Bytes) : Header :=
  h.filter (fun e => !(e.1 == key))

/-- The method `Header.Set`: the entry of `key` becomes the one-element list `[value]`. -/
def Header.Set (h : Header) (key value : Bytes) : Header :=
  (key, [value]) :: Header.Del h key

/-- The method `Header.Add`: appends `value` to the entry of `key`. -/
def Header.Add (h : Header) (key value : Bytes) : Header :=
  match h.lookup key with
  | some vs => (key, vs ++ [value]) :: Header.Del h key
  | none => (key, [value]) :: h

/-- The map index expression `h[key]` with its presence flag. -/
def Header.has (h : Header) (key : Bytes) : Bool :=
  (h.lookup key).isSome

/-- The method `Header.Get`: the first value of `key`, or the empty string. -/
def Header.Get (h : Header) (key : Bytes) : Bytes :=
  match h.lookup key with
  | some (v :: _) => v
  | _ => []

/-! ## Requests, log records, handlers -/

/-- The fields of `url.URL` that the router and the middleware read. -/
structure URL where
  Path : Bytes
  RawPath : Bytes
  deriving DecidableEq

/-- The fields of `http.Request` that the program reads. Handlers do not
modify the request (the contract of `http.Handler`). -/
structure Request where
  Method : Bytes
  URL : URL
  RemoteAddr : Bytes
  deriving DecidableEq

/-- The value of a `slog.Attr`. -/
inductive AttrValue where
  | String : Bytes → AttrValue
  | Int : Int → AttrValue
  | Duration : Int → AttrValue
  deriving DecidableEq

/-- One record handed to the `slog.Logger` by `logger.Info(msg, attrs...)`. -/
structure LogRecord where
  msg : Bytes
  attrs : List (Bytes × AttrValue)
  deriving DecidableEq

/-- The behaviour of a handler that returns: the calls it makes, in order, on
its `http.ResponseWriter` (`Header()` read or mutated, `WriteHeader`, `Write`
with the continuation receiving the returned count and error) and on the
logger. -/
inductive Prog where
  | ret : Prog
  | getHeader : (Header → Prog) → Prog
  | setHeader : (Header → Header) → Prog → Prog
  | WriteHeader : Int → Prog → Prog
  | Write : Bytes → (Nat → Option GoError → Prog) → Prog
  | log : LogRecord → Prog → Prog

/-- An `http.HandlerFunc`. -/
abbrev HandlerFunc := Request → Prog

/-- An implementation of the interface `http.ResponseWriter` over a state
`σ`: `Header` reads the map returned by `Header()`, `putHeader` is the effect
of the caller mutating that map in place. -/
structure ResponseWriter (σ : Type) where
  Header : σ → GitopsDemo.Header
  putHeader : σ → GitopsDemo.Header → σ
  Write : σ → Bytes → σ × Nat × Option GoError
  WriteHeader : σ → Int → σ

/-- Runs a handler against a writer `W` in state `w`, appending the records
it logs to `logs`. -/
def exec {σ : Type} (W : ResponseWriter σ) : Prog → σ → List LogRecord → σ × List LogRecord
  | .ret, w, logs => (w, logs)
  | .getHeader k, w, logs => exec W (k (W.Header w)) w logs
  | .setHeader f p, w, logs => exec W p (W.putHeader w (f (W.Header w))) logs
  | .WriteHeader code p, w, logs => exec W p (W.WriteHeader w code) logs
  | .Write b k, w, logs =>
      exec W (k (W.Write w b).2.1 (W.Write w b).2.2) (W.Write w b).1 logs
  | .log r p, w, logs => exec W p w (logs ++ [r])

/-! ## Response writers -/

/-- The type `httptest.ResponseRecorder`: `Code`, `HeaderMap` and `Body` are
its exported fields, `snapHeader` is the header snapshot returned by
`Result()`, that is the headers of the response as sent. -/
structure ResponseRecorder where
  Code : Int
  HeaderMap : Header
  Body : Bytes
  wroteHeader : Bool
  snapHeader : Header
  deriving DecidableEq

/-- The constructor `httptest.NewRecorder()`. -/
def NewRecorder : ResponseRecorder :=
  { Code := 200, HeaderMap := [], Body := [], wroteHeader := false, snapHeader := [] }

/-- The method `ResponseRecorder.WriteHeader`: only the first call has an
effect; it records the code and snapshots the header map. (Codes outside
100..999 make the Go method panic; a handler that returns never passes one.) -/
def ResponseRecorder.WriteHeader (rw : ResponseRecorder) (code : Int) : ResponseRecorder :=
  if rw.wroteHeader then rw
  else { rw with Code := code, wroteHeader := true, snapHeader := rw.HeaderMap }

/-- The unexported method `ResponseRecorder.writeHeader(b, "")`: before the
first write, sniffs a `Content-Type` when none is set and sends status 200.
`detect` is `http.DetectContentType`. -/
def ResponseRecorder.writeHeader (detect : Bytes → Bytes) (rw : ResponseRecorder)
    (b : Bytes) : ResponseRecorder :=
  if rw.wroteHeader then rw
  else
    let m := rw.HeaderMap
    let hasType := Header.has m (ascii "Content-Type")
    let hasTE := Header.Get m (ascii "Transfer-Encoding") != []
    let rw1 : ResponseRecorder :=
      if !hasType && !hasTE then
        { rw with HeaderMap := Header.Set m (ascii "Content-Type") (detect b) }
      else rw
    ResponseRecorder.WriteHeader rw1 200

/-- The function `bodyAllowedForStatus` of package http: a response with
status 1xx, 204 or 304 carries no body. -/
def bodyAllowedForStatus (status : Int) : Bool :=
  if 100 ≤ status ∧ status ≤ 199 then false
  else if status = 204 then false
  else if status = 304 then false
  else true

/-- The error `http.ErrBodyNotAllowed`. -/
def ErrBodyNotAllowed : GoError :=
  .other (ascii "http: request method or response status code does not allow body")

/-- The method `ResponseRecorder.Write`: sends the header if it is not yet
sent, records the bytes, and returns `len(buf)` with no error, or `0` with
`http.ErrBodyNotAllowed` when the status sent allows no body. -/
def ResponseRecorder.Write (detect : Bytes → Bytes) (rw : ResponseRecorder)
    (buf : Bytes) : ResponseRecorder × Nat × Option GoError :=
  let rw1 := ResponseRecorder.writeHeader detect rw buf
  if bodyAllowedForStatus rw1.Code then
    ({ rw1 with Body := rw1.Body ++ buf }, buf.length, none)
  else ({ rw1 with Body := rw1.Body ++ buf }, 0, some ErrBodyNotAllowed)

/-- The recorder as an `http.ResponseWriter`. -/
def recorderWriter (detect : Bytes → Bytes) : ResponseWriter ResponseRecorder where
  Header := fun rw => rw.HeaderMap
  putHeader := fun rw h => { rw with HeaderMap := h }
  Write := ResponseRecorder.Write detect
  WriteHeader := ResponseRecorder.WriteHeader

/-- The type `errorWriter` of `health_test.go`: a writer whose `Write` always fails. -/
structure errorWriter where
  header : Header
  statusCode : Int
  deriving DecidableEq

/-- The methods of `errorWriter`: `WriteHeader` overwrites `statusCode`,
`Write` returns `0` and the error "forced write error". -/
def errorWriterWriter : ResponseWriter errorWriter where
  Header := fun e => e.header
  putHeader := fun e h => { e with header := h }
  Write := fun e _ => (e, 0, some (.other (ascii "forced write error")))
  WriteHeader := fun e code => { e with statusCode := code }

/-! ## Package `unicode/utf8` -/

/-- The constant `utf8.RuneError`, U+FFFD. -/
def RuneError : Nat := 0xFFFD

/-- The table `first` of package utf8 joined with `acceptRanges`: for a lead
byte of a multi-byte sequence, the sequence length and the accepted range of
the second byte; `none` for the bytes marked invalid (`xx`). -/
def utf8first (p0 : Nat) : Option (Nat × Nat × Nat) :=
  if p0 < 0xC2 then none
  else if p0 < 0xE0 then some (2, 0x80, 0xBF)
  else if p0 = 0xE0 then some (3, 0xA0, 0xBF)
  else if p0 < 0xED then some (3, 0x80, 0xBF)
  else if p0 = 0xED then some (3, 0x80, 0x9F)
  else if p0 < 0xF0 then some (3, 0x80, 0xBF)
  else if p0 = 0xF0 then some (4, 0x90, 0xBF)
  else if p0 < 0xF4 then some (4, 0x80, 0xBF)
  else if p0 = 0xF4 then some (4, 0x80, 0x8F)
  else none

/-- The function `utf8.DecodeRune`: the first rune of `p` and its width in
bytes, `(RuneError, 1)` for an invalid encoding. Masks and shifts are written
as remainders and products: `p0&mask2` is `p0 % 32`, `x<<6` is `x * 64`, and
the or-ed fields do not overlap. -/
def DecodeRune (p : Bytes) : Nat × Nat :=
  match p with
  | [] => (RuneError, 0)
  | p0 :: _ =>
    if p0 < 0x80 then (p0, 1)
    else
      match utf8first p0 with
      | none => (RuneError, 1)
      | some (sz, lo, hi) =>
        if p.length < sz then (RuneError, 1)
        else
          let b1 := p.getD 1 0
          if b1 < lo ∨ hi < b1 then (RuneError, 1)
          else if sz ≤ 2 then ((p0 % 32) * 64 + b1 % 64, 2)
          else
            let b2 := p.getD 2 0
            if b2 < 0x80 ∨ 0xBF < b2 then (RuneError, 1)
            else if sz ≤ 3 then ((p0 % 16) * 4096 + (b1 % 64) * 64 + b2 % 64, 3)
            else
              let b3 := p.getD 3 0
              if b3 < 0x80 ∨ 0xBF < b3 then (RuneError, 1)
              else ((p0 % 8) * 262144 + (b1 % 64) * 4096 + (b2 % 64) * 64 + b3 % 64, 4)

/-- The function `utf8.EncodeRune` (the bytes written): surrogates and values
above U+10FFFF are written as U+FFFD. -/
def EncodeRune (r : Nat) : Bytes :=
  if r ≤ 0x7F then [r]
  else if r ≤ 0x7FF then [0xC0 + r / 64, 0x80 + r % 64]
  else if 0x10FFFF < r ∨ (0xD800 ≤ r ∧ r ≤ 0xDFFF) then [0xEF, 0xBF, 0xBD]
  else if r ≤ 0xFFFF then [0xE0 + r / 4096, 0x80 + r / 64 % 64, 0x80 + r % 64]
  else [0xF0 + r / 262144, 0x80 + r / 4096 % 64, 0x80 + r / 64 % 64, 0x80 + r % 64]

/-- The function `utf8.Valid`, with the loop bounded by `fuel`. -/
def validLoop : Nat → Bytes → Bool
  | 0, p => p.isEmpty
  | fuel + 1, p =>
    if p.isEmpty then true
    else if (DecodeRune p).1 = RuneError ∧ (DecodeRune p).2 = 1 then false
    else validLoop fuel (p.drop (DecodeRune p).2)

/-- The function `utf8.Valid`. -/
def utf8Valid (p : Bytes) : Bool := validLoop p.length p

/-! ## Package `encoding/json`: encoding -/

/-- The digit table `hex` of package json. -/
def hex (n : Nat) : Nat := (ascii "0123456789abcdef").getD n 0

/-- The table `htmlSafeSet`: the ASCII bytes written without escaping when
HTML escaping is on (the default of `json.Encoder`). -/
def htmlSafeSet (b : Nat) : Bool :=
  decide (0x20 ≤ b) && decide (b < 0x80) &&
    !(b == 34 || b == 38 || b == 60 || b == 62 || b == 92)

/-- One iteration of the loop of `appendString`: the bytes it adds to the
output for the character at the front of `src`, and the number of source
bytes it consumes. Safe ASCII bytes and well-formed multi-byte characters are
copied, the other ASCII bytes are escaped (with the short escapes for
backspace and form feed), an invalid byte becomes the escape of U+FFFD, and
U+2028 and U+2029 are escaped. -/
def appendStringStep (src : Bytes) : Bytes × Nat :=
  match src with
  | [] => ([], 0)
  | b :: _ =>
    if b < 0x80 then
      if htmlSafeSet b then ([b], 1)
      else if b = 92 ∨ b = 34 then ([92, b], 1)
      else if b = 8 then ([92, 98], 1)
      else if b = 12 then ([92, 102], 1)
      else if b = 10 then ([92, 110], 1)
      else if b = 13 then ([92, 114], 1)
      else if b = 9 then ([92, 116], 1)
      else ([92, 117, 48, 48, hex (b / 16), hex (b % 16)], 1)
    else
      let c := (DecodeRune (src.take 4)).1
      let size := (DecodeRune (src.take 4)).2
      if c = RuneError ∧ size = 1 then (ascii "\\ufffd", 1)
      else if c = 0x2028 ∨ c = 0x2029 then (ascii "\\u202" ++ [hex (c % 16)], size)
      else (src.take size, size)

/-- The loop of `appendString` over the source bytes, bounded by `fuel`. -/
def appendStringLoop : Nat → Bytes → Bytes
  | 0, _ => []
  | fuel + 1, src =>
    if src.isEmpty then []
    else (appendStringStep src).1 ++ appendStringLoop fuel (src.drop (appendStringStep src).2)

/-- The function `appendString(dst, src, escapeHTML = true)` of package json:
the JSON string literal for `src`. -/
def appendString (src : Bytes) : Bytes :=
  34 :: (appendStringLoop src.length src ++ [34])

/-- The loop of `structEncoder.encode` over fields that are strings, each
given by its JSON name and value; `next` is the separator byte. The name is
written between quotes as it stands, which is what the encoder does for a
name free of `<`, `>` and `&`, as every struct tag of the repository is. -/
def structEncodeLoop : Nat → List (Bytes × Bytes) → Bytes
  | next, [] => if next = 123 then ascii "\x7b\x7d" else [125]
  | next, (name, v) :: fs =>
    next :: (34 :: name ++ ascii "\":") ++ appendString v ++ structEncodeLoop 44 fs

/-- The method `structEncoder.encode` for a struct whose fields are strings. -/
def structEncode (fields : List (Bytes × Bytes)) : Bytes :=
  structEncodeLoop 123 fields

/-! ## Package `encoding/json`: decoding -/

/-- The states of the scanner inside a string literal: `stateInString`,
`stateInStringEsc`, and `stateInStringEscU` to `stateInStringEscU123` (by the
number of hexadecimal digits already read). -/
inductive StrState where
  | inString : StrState
  | esc : StrState
  | escU : Nat → StrState
  deriving DecidableEq

/-- The test for a hexadecimal digit in `stateInStringEscU`. -/
def isHexDigit (c : Nat) : Bool :=
  (decide (48 ≤ c) && decide (c ≤ 57)) || (decide (97 ≤ c) && decide (c ≤ 102)) ||
    (decide (65 ≤ c) && decide (c ≤ 70))

/-- The scanner run from just after the opening quote of a string literal:
the bytes of the literal up to its closing quote and the input after that
quote; `none` on a syntax error or when the input ends first. -/
def scanStringLit : StrState → Bytes → Option (Bytes × Bytes)
  | _, [] => none
  | .inString, c :: cs =>
    if c = 34 then some ([], cs)
    else if c = 92 then (scanStringLit .esc cs).map (fun x => (c :: x.1, x.2))
    else if c < 0x20 then none
    else (scanStringLit .inString cs).map (fun x => (c :: x.1, x.2))
  | .esc, c :: cs =>
    if c = 98 ∨ c = 102 ∨ c = 110 ∨ c = 114 ∨ c = 116 ∨ c = 92 ∨ c = 47 ∨ c = 34 then
      (scanStringLit .inString cs).map (fun x => (c :: x.1, x.2))
    else if c = 117 then (scanStringLit (.escU 0) cs).map (fun x => (c :: x.1, x.2))
    else none
  | .escU n, c :: cs =>
    if isHexDigit c then
      (scanStringLit (if n < 3 then .escU (n + 1) else .inString) cs).map
        (fun x => (c :: x.1, x.2))
    else none

/-- The value of one hexadecimal digit in `getu4`. -/
def hexVal (c : Nat) : Option Nat :=
  if 48 ≤ c ∧ c ≤ 57 then some (c - 48)
  else if 97 ≤ c ∧ c ≤ 102 then some (c - 97 + 10)
  else if 65 ≤ c ∧ c ≤ 70 then some (c - 65 + 10)
  else none

/-- The function `getu4`: the value of the escape `\uXXXX` at the start of
`s`, `none` where the Go function returns -1. -/
def getu4 (s : Bytes) : Option Nat :=
  match s with
  | b0 :: b1 :: c0 :: c1 :: c2 :: c3 :: _ =>
    if b0 ≠ 92 ∨ b1 ≠ 117 then none
    else
      match hexVal c0, hexVal c1, hexVal c2, hexVal c3 with
      | some d0, some d1, some d2, some d3 => some (((d0 * 16 + d1) * 16 + d2) * 16 + d3)
      | _, _, _, _ => none
  | _ => none

/-- The function `utf16.IsSurrogate`. -/
def IsSurrogate (r : Nat) : Bool := decide (0xD800 ≤ r) && decide (r < 0xE000)

/-- The function `utf16.DecodeRune` on a first half `r1` and the result of
`getu4` for the second half. -/
def utf16DecodeRune (r1 : Nat) (r2 : Option Nat) : Nat :=
  match r2 with
  | some r2 =>
    if 0xD800 ≤ r1 ∧ r1 < 0xDC00 ∧ 0xDC00 ≤ r2 ∧ r2 < 0xE000 then
      (r1 - 0xD800) * 1024 + (r2 - 0xDC00) + 0x10000
    else 0xFFFD
  | none => 0xFFFD

/-- One iteration of the loop of `unquoteBytes` on the rest `s` of a literal:
the bytes it writes and the number of bytes of `s` it consumes, `none` where
the Go function fails. -/
def unquoteStep (s : Bytes) : Option (Bytes × Nat) :=
  match s with
  | [] => none
  | c :: rest =>
    if c = 92 then
      match rest with
      | [] => none
      | e :: _ =>
        if e = 34 ∨ e = 92 ∨ e = 47 ∨ e = 39 then some ([e], 2)
        else if e = 98 then some ([8], 2)
        else if e = 102 then some ([12], 2)
        else if e = 110 then some ([10], 2)
        else if e = 114 then some ([13], 2)
        else if e = 116 then some ([9], 2)
        else if e = 117 then
          match getu4 s with
          | none => none
          | some rr =>
            if IsSurrogate rr then
              if utf16DecodeRune rr (getu4 (s.drop 6)) ≠ 0xFFFD then
                some (EncodeRune (utf16DecodeRune rr (getu4 (s.drop 6))), 12)
              else some (EncodeRune 0xFFFD, 6)
            else some (EncodeRune rr, 6)
        else none
    else if c = 34 ∨ c < 0x20 then none
    else if c < 0x80 then some ([c], 1)
    else some (EncodeRune (DecodeRune s).1, (DecodeRune s).2)

/-- The loop of `unquoteBytes`, bounded by `fuel`. -/
def unquoteLoop : Nat → Bytes → Option Bytes
  | 0, s => if s.isEmpty then some [] else none
  | fuel + 1, s =>
    if s.isEmpty then some []
    else
      match unquoteStep s with
      | none => none
      | some x => (unquoteLoop fuel (s.drop x.2)).map (fun t => x.1 ++ t)

/-- The function `unquoteBytes` on the bytes between the quotes of a literal.
(The Go function first returns literals without escapes and without invalid
UTF-8 unchanged; the loop gives the same bytes for them.) -/
def unquoteBytes (lit : Bytes) : Option Bytes := unquoteLoop lit.length lit

/-- The test `isSpace` of the scanner. -/
def isSpace (c : Nat) : Bool := c == 32 || c == 9 || c == 13 || c == 10

/-- Skips the white space the scanner skips between tokens. -/
def skipSpace : Bytes → Bytes
  | [] => []
  | c :: cs => if isSpace c then skipSpace cs else c :: cs

/-- Reads one string token at the start of `s`: the decoded string and the
input after the closing quote. -/
def readString (s : Bytes) : Option (Bytes × Bytes) :=
  match s with
  | [] => none
  | c :: cs =>
    if c = 34 then
      match scanStringLit .inString cs with
      | none => none
      | some x =>
        match unquoteBytes x.1 with
        | none => none
        | some str => some (str, x.2)
    else none

/-- The members of an object whose values are strings, read from the first
key on, up to and including the closing brace; bounded by `fuel`. -/
def readMembers : Nat → Bytes → Option (List (Bytes × Bytes) × Bytes)
  | 0, _ => none
  | fuel + 1, s =>
    match readString s with
    | none => none
    | some k =>
      match skipSpace k.2 with
      | [] => none
      | c :: s2 =>
        if c = 58 then
          match readString (skipSpace s2) with
          | none => none
          | some v =>
            match skipSpace v.2 with
            | [] => none
            | d :: s4 =>
              if d = 44 then
                (readMembers fuel (skipSpace s4)).map (fun x => ((k.1, v.1) :: x.1, x.2))
              else if d = 125 then some ([(k.1, v.1)], s4)
              else none
        else none

/-- What `Decoder.Decode` reads from `data` when the next value is an object
whose values are all strings: the decoded members in order and the input left
after the closing brace; `none` for any other input. -/
def decodeObject (data : Bytes) : Option (List (Bytes × Bytes) × Bytes) :=
  match skipSpace data with
  | [] => none
  | c :: s1 =>
    if c = 123 then
      match skipSpace s1 with
      | [] => none
      | d :: s2 => if d = 125 then some ([], s2) else readMembers data.length (d :: s2)
    else none

/-! ## Package `internal/version` -/

namespace version

/-- The package-level variables `Tag`, `Commit`, `BuildTime`. -/
structure Vars where
  Tag : Bytes
  Commit : Bytes
  BuildTime : Bytes
  deriving DecidableEq

/-- The values of the variables when the linker injects nothing. -/
def defaults : Vars :=
  { Tag := ascii "dev", Commit := ascii "unknown", BuildTime := ascii "unknown" }

/-- The struct `version.Info`. -/
structure Info where
  Tag : Bytes
  Commit : Bytes
  BuildTime : Bytes
  GoVersion : Bytes
  deriving DecidableEq

/-- The function `version.Get`; `runtimeVersion` is the value of `runtime.Version()`. -/
def Get (vars : Vars) (runtimeVersion : Bytes) : Info :=
  { Tag := vars.Tag, Commit := vars.Commit, BuildTime := vars.BuildTime,
    GoVersion := runtimeVersion }

end version

/-! ## Package `internal/handlers` -/

/-- The values passed to `writeJSON` as `v any`: a `HealthResponse`, a
`version.Info`, or a value that `encoding/json` cannot encode (a channel, a
function). -/
inductive Value where
  | HealthResponse : Bytes → Value
  | Info : version.Info → Value
  | unsupported : Value
  deriving DecidableEq

/-- The method `encodeState.marshal` on a `Value`, following the struct tags
of `HealthResponse` and `version.Info`. -/
def Marshal : Value → Except GoError Bytes
  | .HealthResponse status => .ok (structEncode [(ascii "status", status)])
  | .Info i =>
      .ok (structEncode [(ascii "tag", i.Tag), (ascii "commit", i.Commit),
        (ascii "build_time", i.BuildTime), (ascii "go_version", i.GoVersion)])
  | .unsupported => .error (.other (ascii "json: unsupported type"))

/-- The method `Encoder.Encode`: marshals `v`, appends a newline and hands the
bytes to the writer in one `Write`; returns the marshal error or the write
error to the continuation. -/
def Encode (v : Value) (k : Option GoError → Prog) : Prog :=
  match Marshal v with
  | .error e => k (some e)
  | .ok b => .Write (b ++ [10]) (fun _ err => k err)

/-- The function `http.Error`. -/
def httpError (error : Bytes) (code : Int) : Prog :=
  .setHeader (fun h =>
      Header.Set
        (Header.Set (Header.Del h (ascii "Content-Length"))
          (ascii "Content-Type") (ascii "text/plain; charset=utf-8"))
        (ascii "X-Content-Type-Options") (ascii "nosniff")) <|
  .WriteHeader code <|
  .Write (error ++ [10]) (fun _ _ => .ret)

namespace handlers

/-- The function `writeJSON`. -/
def writeJSON (status : Int) (v : Value) : Prog :=
  .setHeader (fun h => Header.Set h (ascii "Content-Type") (ascii "application/json")) <|
  .WriteHeader status <|
  Encode v (fun err =>
    match err with
    | some _ => httpError (ascii "\x7b\"error\":\"internal server error\"\x7d") 500
    | none => .ret)

/-- The handler `Healthz`. -/
def Healthz : HandlerFunc := fun _ =>
  .log { msg := ascii "liveness probe hit", attrs := [] } <|
  writeJSON 200 (.HealthResponse (ascii "ok"))

/-- The handler `Readyz`. -/
def Readyz : HandlerFunc := fun _ =>
  .log { msg := ascii "readiness probe hit", attrs := [] } <|
  writeJSON 200 (.HealthResponse (ascii "ready"))

/-- The handler `Info`: reads the package variables on every call. -/
def Info (vars : version.Vars) (runtimeVersion : Bytes) : HandlerFunc := fun _ =>
  .log { msg := ascii "info endpoint hit",
         attrs := [(ascii "tag", .String (version.Get vars runtimeVersion).Tag),
                   (ascii "commit", .String (version.Get vars runtimeVersion).Commit)] } <|
  writeJSON 200 (.Info (version.Get vars runtimeVersion))

/-- The struct `responseRecorder`: the wrapped writer and the captured status code. -/
structure responseRecorder (σ : Type) where
  ResponseWriter : σ
  statusCode : Int

/-- The method set of `*responseRecorder`: `Header` and `Write` are promoted
from the embedded writer, `WriteHeader` stores the code and delegates. -/
def responseRecorder.writer {σ : Type} (W : GitopsDemo.ResponseWriter σ) :
    GitopsDemo.ResponseWriter (responseRecorder σ) where
  Header := fun rr => W.Header rr.ResponseWriter
  putHeader := fun rr h => { rr with ResponseWriter := W.putHeader rr.ResponseWriter h }
  Write := fun rr b =>
    ({ rr with ResponseWriter := (W.Write rr.ResponseWriter b).1 },
      (W.Write rr.ResponseWriter b).2.1, (W.Write rr.ResponseWriter b).2.2)
  WriteHeader := fun rr code =>
    { ResponseWriter := W.WriteHeader rr.ResponseWriter code, statusCode := code }

/-- The record logged by `RequestLogger`; `duration` is `time.Since(start)`. -/
def requestRecord (r : Request) (statusCode : Int) (duration : Int) : LogRecord :=
  { msg := ascii "request completed",
    attrs := [(ascii "method", .String r.Method),
              (ascii "path", .String r.URL.Path),
              (ascii "status", .Int statusCode),
              (ascii "duration", .Duration duration),
              (ascii "remote_addr", .String r.RemoteAddr)] }

/-- The handler `RequestLogger(logger)(next)` serving request `r` on writer
`W` in state `w`; `start` and `finish` are the clock readings of `time.Now()`
on entry and inside `time.Since`. -/
def RequestLogger (start finish : Int) (next : HandlerFunc) {σ : Type}
    (W : GitopsDemo.ResponseWriter σ) (r : Request) (w : σ) (logs : List LogRecord) :
    σ × List LogRecord :=
  let rec0 : responseRecorder σ := { ResponseWriter := w, statusCode := 200 }
  let out := exec (responseRecorder.writer W) (next r) rec0 logs
  (out.1.ResponseWriter, out.2 ++ [requestRecord r out.1.statusCode (finish - start)])

end handlers

/-! ## Package `github.com/go-chi/chi/v5` -/

namespace chi

/-- The keys of `methodMap`: the methods chi routes. -/
def methodMap : List Bytes :=
  [ascii "CONNECT", ascii "DELETE", ascii "GET", ascii "HEAD", ascii "OPTIONS",
   ascii "PATCH", ascii "POST", ascii "PUT", ascii "TRACE"]

/-- One endpoint registered on the mux: method, static pattern, handler. -/
structure Route where
  method : Bytes
  pattern : Bytes
  handler : HandlerFunc

/-- The routing path computed at the top of `Mux.routeHTTP`: `URL.RawPath`
when it is set, `URL.Path` otherwise, and `/` when both are empty. -/
def routePath (r : Request) : Bytes :=
  if r.URL.RawPath ≠ [] then r.URL.RawPath
  else if r.URL.Path ≠ [] then r.URL.Path
  else ascii "/"

/-- The function `http.NotFound`, chi's default not-found handler. -/
def NotFound : HandlerFunc := fun _ =>
  httpError (ascii "404 page not found") 404

/-- The default `methodNotAllowedHandler` of chi. -/
def methodNotAllowedHandler (methodsAllowed : List Bytes) : HandlerFunc := fun _ =>
  .setHeader (fun h => methodsAllowed.foldl (fun acc m => Header.Add acc (ascii "Allow") m) h) <|
  .WriteHeader 405 <|
  .Write [] (fun _ _ => .ret)

/-- The method `Mux.routeHTTP` for a tree of static patterns, where the tree
lookup `FindRoute` is equality of the routing path with a pattern. -/
def routeHTTP (routes : List Route) : HandlerFunc := fun r =>
  if !(methodMap.contains r.Method) then methodNotAllowedHandler [] r
  else
    match routes.find? (fun e => e.pattern == routePath r && e.method == r.Method) with
    | some e => e.handler r
    | none =>
      if routes.any (fun e => e.pattern == routePath r) then
        methodNotAllowedHandler
          ((routes.filter (fun e => e.pattern == routePath r)).map (fun e => e.method)) r
      else NotFound r

end chi

/-! ## Package `main` (`cmd/server`) -/

namespace main

/-- The routes registered by `newRouter` with `r.Get`. -/
def routes (vars : version.Vars) (runtimeVersion : Bytes) : List chi.Route :=
  [ { method := ascii "GET", pattern := ascii "/healthz", handler := handlers.Healthz },
    { method := ascii "GET", pattern := ascii "/readyz", handler := handlers.Readyz },
    { method := ascii "GET", pattern := ascii "/info",
      handler := handlers.Info vars runtimeVersion } ]

/-- The handler built by `newRouter`: the middleware installed with `r.Use`
wraps the whole of `routeHTTP`. -/
def newRouter (vars : version.Vars) (runtimeVersion : Bytes) (start finish : Int)
    {σ : Type} (W : ResponseWriter σ) (r : Request) (w : σ) (logs : List LogRecord) :
    σ × List LogRecord :=
  handlers.RequestLogger start finish (chi.routeHTTP (routes vars runtimeVersion)) W r w logs

/-- Which case of the `select` in `run` fires: the context is cancelled
first, or `ListenAndServe` returns first with the given error. -/
inductive RunEvent where
  | cancelled : RunEvent
  | listenReturned : Option GoError → RunEvent
  deriving DecidableEq

/-- The goroutine of `run`: what a receive on `errCh` yields once
`ListenAndServe` has returned `err` (the value and the `ok` flag). -/
def errChReceive (err : Option GoError) : Option GoError × Bool :=
  if !(errorsIsServerClosed err) then (err, true) else (none, false)

/-- What `run` did: the error it returned, the timeout (in nanoseconds) of
each `srv.Shutdown` call it made, and the messages it logged. -/
structure RunOutcome where
  err : Option GoError
  shutdownCalls : List Int
  logs : List Bytes
  deriving DecidableEq

/-- The duration `15*time.Second` in nanoseconds. -/
def shutdownTimeout : Int := 15 * 1000000000

/-- The tail of `run` after the `select`: the bounded `srv.Shutdown`;
`Shutdown` gives the error that call returns for a given timeout. -/
def runShutdown (Shutdown : Int → Option GoError) (logs : List Bytes) : RunOutcome :=
  match Shutdown shutdownTimeout with
  | some err =>
      { err := some (.wrap (ascii "graceful shutdown: ") err),
        shutdownCalls := [shutdownTimeout], logs := logs }
  | none =>
      { err := none, shutdownCalls := [shutdownTimeout],
        logs := logs ++ [ascii "server stopped gracefully"] }

/-- The function `run`. -/
def run (ev : RunEvent) (Shutdown : Int → Option GoError) : RunOutcome :=
  match ev with
  | .cancelled => runShutdown Shutdown [ascii "shutdown signal received"]
  | .listenReturned lsErr =>
    match errChReceive lsErr with
    | (some err, true) =>
        { err := some (.wrap (ascii "server listen: ") err), shutdownCalls := [], logs := [] }
    | _ => runShutdown Shutdown []

end main

/-! ## Observations used in the statements -/

/-- The response a recorder holds is a JSON success: status `code` sent with
exactly one `Content-Type` value, `application/json`. -/
def sentJSON (rw : ResponseRecorder) (code : Int) : Prop :=
  rw.wroteHeader = true ∧ rw.Code = code ∧
    rw.snapHeader.lookup (ascii "Content-Type") = some [ascii "application/json"]

instance (rw : ResponseRecorder) (code : Int) : Decidable (sentJSON rw code) := by
  unfold sentJSON; infer_instance

/-- A handler that calls `WriteHeader(200)` and then `WriteHeader(500)`. -/
def twiceHandler : HandlerFunc := fun _ =>
  .WriteHeader 200 (.WriteHeader 500 .ret)

/-- A handler that writes body bytes and calls `WriteHeader(404)` afterwards. -/
def lateHandler : HandlerFunc := fun _ =>
  .Write (ascii "hello") (fun _ _ => .WriteHeader 404 .ret)

/-- A content sniffer standing for `http.DetectContentType` in closed examples. -/
def detectPlain : Bytes → Bytes := fun _ => ascii "text/plain; charset=utf-8"

/-- The request `GET /healthz` of the tests. -/
def getHealthz : Request :=
  { Method := ascii "GET", URL := { Path := ascii "/healthz", RawPath := [] },
    RemoteAddr := ascii "192.0.2.1:1234" }

/-- The request whose request line is `GET /%68ealthz`: the parsed path is
`/healthz` and, the escaped form differing from the default one, `RawPath`
keeps the text as sent. -/
def getEscapedHealthz : Request :=
  { Method := ascii "GET", URL := { Path := ascii "/healthz", RawPath := ascii "/%68ealthz" },
    RemoteAddr := ascii "192.0.2.1:1234" }

/-- The routing table as the specification words it: the handler that answers
a request whose routing path is `path`. -/
def specDispatch (vars : version.Vars) (runtimeVersion : Bytes) (path : Bytes) : HandlerFunc :=
  if path = ascii "/healthz" then handlers.Healthz
  else if path = ascii "/readyz" then handlers.Readyz
  else if path = ascii "/info" then handlers.Info vars runtimeVersion
  else chi.NotFound

/-- The status the specification gives to a GET request whose routing path is `path`. -/
def specStatus (path : Bytes) : Int :=
  if path = ascii "/healthz" ∨ path = ascii "/readyz" ∨ path = ascii "/info" then 200 else 404

/-- The build metadata set by `TestInfo_ReturnsBuildMetadata`. -/
def testVars : version.Vars :=
  { Tag := ascii "v0.1.0-test", Commit := ascii "deadbeef",
    BuildTime := ascii "2026-01-01T00:00:00Z" }

/-- Build metadata whose tag is the Go string with the single byte 0xFF,
which is not valid UTF-8. -/
def rawTagVars : version.Vars :=
  { Tag := [0xFF], Commit := ascii "deadbeef", BuildTime := ascii "2026-01-01T00:00:00Z" }

/-- The request `GET /info` of the tests. -/
def getInfo : Request :=
  { Method := ascii "GET", URL := { Path := ascii "/info", RawPath := [] },
    RemoteAddr := ascii "192.0.2.1:1234" }

/-- The value the decoder gives to the key `tag` of the body that `Info`
writes to a fresh recorder. -/
def decodedTag (vars : version.Vars) (runtimeVersion : Bytes) : Option (Option Bytes) :=
  (decodeObject (exec (recorderWriter detectPlain)
      (handlers.Info vars runtimeVersion getInfo) NewRecorder []).1.Body).map
    (fun x => x.1.lookup (ascii "tag"))

/-! ## Handlers that type-assert their writer -/

/-- A response writer as a handler receives it: the methods of the interface
`http.ResponseWriter` and whether the dynamic type also implements the
optional interface `http.Flusher`. -/
structure DynWriter (σ : Type) where
  methods : ResponseWriter σ
  isFlusher : Bool

/-- The type `*httptest.ResponseRecorder` as a handler receives it: it has a
`Flush` method. -/
def recorderDyn (detect : Bytes → Bytes) : DynWriter ResponseRecorder :=
  { methods := recorderWriter detect, isFlusher := true }

/-- The type `*responseRecorder` as a handler receives it: embedding the
interface `http.ResponseWriter` promotes `Header`, `Write` and `WriteHeader`
only, so it has no `Flush` method, whatever writer it wraps. -/
def handlers.responseRecorder.dyn {σ : Type} (D : DynWriter σ) :
    DynWriter (handlers.responseRecorder σ) :=
  { methods := handlers.responseRecorder.writer D.methods, isFlusher := false }

/-- An `http.HandlerFunc` that begins with the type assertion
`w.(http.Flusher)`: the calls it makes for each result `ok` of the assertion. -/
abbrev ProbingHandlerFunc := Request → Bool → Prog

/-- Runs a handler that type-asserts its writer against `D` in state `w`. -/
def serveProbing {σ : Type} (H : ProbingHandlerFunc) (D : DynWriter σ) (r : Request) (w : σ)
    (logs : List LogRecord) : σ × List LogRecord :=
  exec D.methods (H r D.isFlusher) w logs

/-- The handler `RequestLogger(logger)(next)` for a `next` that type-asserts
its writer: `next` receives the `*responseRecorder`. -/
def handlers.RequestLoggerProbing (start finish : Int) (next : ProbingHandlerFunc) {σ : Type}
    (D : DynWriter σ) (r : Request) (w : σ) (logs : List LogRecord) : σ × List LogRecord :=
  let rec0 : handlers.responseRecorder σ := { ResponseWriter := w, statusCode := 200 }
  let out := serveProbing next (handlers.responseRecorder.dyn D) r rec0 logs
  (out.1.ResponseWriter,
    out.2 ++ [handlers.requestRecord r out.1.statusCode (finish - start)])

/-- A handler that streams when its writer can flush and answers 500
otherwise: `if _, ok := w.(http.Flusher); !ok { http.Error(w, "streaming
unsupported", 500); return }; w.WriteHeader(200); w.Write(...)`. -/
def streamHandler : ProbingHandlerFunc := fun _ ok =>
  if ok then .WriteHeader 200 (.Write (ascii "data: tick\n\n") (fun _ _ => .ret))
  else httpError (ascii "streaming unsupported") 500

/-! ## Package `main`: the environment and `start` -/

/-- The process environment: for each variable name, its value when the
variable is set (the function `os.LookupEnv`). A variable can be set to the
empty string. -/
abbrev Environ := Bytes → Option Bytes

/-- The function `os.Getenv`: the value of the variable, and the empty string
both for a variable that is not set and for one set to the empty string. -/
def Getenv (env : Environ) (key : Bytes) : Bytes :=
  match env key with
  | some v => v
  | none => []

/-- The function `godotenv.Load()`: `dotenv` is the content of the file `.env`
as parsed key by key, `none` when the file cannot be read (the error is
dropped by `start`). A variable of the file is set only when the process
environment does not already hold that name. -/
def godotenvLoad (dotenv : Option (Bytes → Option Bytes)) (env : Environ) : Environ :=
  match dotenv with
  | none => env
  | some file => fun key =>
    match env key with
    | some v => some v
    | none => file key

namespace main

/-- The function `envOrDefault`, reading the environment `env`. -/
def envOrDefault (env : Environ) (key fallback : Bytes) : Bytes :=
  if Getenv env key ≠ [] then Getenv env key else fallback

/-- The fields `newServer` sets in the `http.Server` (the handler apart);
durations in nanoseconds. -/
structure Server where
  Addr : Bytes
  ReadHeaderTimeout : Int
  ReadTimeout : Int
  WriteTimeout : Int
  IdleTimeout : Int
  deriving DecidableEq

/-- The function `newServer`: the address is the port after a colon. -/
def newServer (port : Bytes) : Server :=
  { Addr := ascii ":" ++ port,
    ReadHeaderTimeout := 10 * 1000000000,
    ReadTimeout := 30 * 1000000000,
    WriteTimeout := 30 * 1000000000,
    IdleTimeout := 120 * 1000000000 }

/-- What `start` did: the port it logged at startup, the server it built and
the outcome of `run`. -/
structure StartOutcome where
  port : Bytes
  srv : Server
  ran : RunOutcome
  deriving DecidableEq

/-- The function `start` in the process environment `env`, with `.env`
content `dotenv`: loads the file, reads the port, builds the server and runs
it. -/
def start (env : Environ) (dotenv : Option (Bytes → Option Bytes)) (ev : RunEvent)
    (Shutdown : Int → Option GoError) : StartOutcome :=
  { port := envOrDefault (godotenvLoad dotenv env) (ascii "PORT") (ascii "8080"),
    srv := newServer (envOrDefault (godotenvLoad dotenv env) (ascii "PORT") (ascii "8080")),
    ran := run ev Shutdown }

end main

/-- An environment in which `PORT` is set to the empty string and nothing
else is set. -/
def emptyPortEnv : Environ := fun key => if key = ascii "PORT" then some [] else none

/-! # Theorems -/

/-! ## Lemmas: the recorder and the handlers -/

theorem marshal_ok :
    Marshal (.HealthResponse (ascii "ok")) = .ok (ascii "\x7b\"status\":\"ok\"\x7d") := by
  rfl

theorem marshal_ready :
    Marshal (.HealthResponse (ascii "ready")) = .ok (ascii "\x7b\"status\":\"ready\"\x7d") := by
  rfl

/-- Every value that marshals is written by `writeJSON` to a recorder whose
header is not yet written, with a status that allows a body, in one piece
followed by a newline, with that status and the headers fixed by
`WriteHeader`. -/
theorem writeJSON_recorder_ok (detect : Bytes → Bytes) (status : Int) (v : Value) (b : Bytes)
    (hv : Marshal v = .ok b) (rw : ResponseRecorder) (logs : List LogRecord)
    (h : rw.wroteHeader = false) (hs : bodyAllowedForStatus status = true) :
    exec (recorderWriter detect) (handlers.writeJSON status v) rw logs =
      ({ ResponseRecorder.WriteHeader
            { rw with HeaderMap := Header.Set rw.HeaderMap (ascii "Content-Type")
                                     (ascii "application/json") } status with
          Body := rw.Body ++ (b ++ [10]) }, logs) := by
  simp only [handlers.writeJSON, Encode, hv, exec, recorderWriter, ResponseRecorder.Write,
    ResponseRecorder.writeHeader, ResponseRecorder.WriteHeader]
  simp [h, hs, exec]

theorem bodyAllowed_200 : bodyAllowedForStatus 200 = true := by decide

theorem lookup_Set_self (h : Header) (k v : Bytes) :
    (Header.Set h k v).lookup k = some [v] := by
  simp [Header.Set, List.lookup]

theorem writeJSON_sentJSON (detect : Bytes → Bytes) (status : Int) (v : Value) (b : Bytes)
    (hv : Marshal v = .ok b) (rw : ResponseRecorder) (logs : List LogRecord)
    (h : rw.wroteHeader = false) (hs : bodyAllowedForStatus status = true) :
    sentJSON (exec (recorderWriter detect) (handlers.writeJSON status v) rw logs).1 status := by
  rw [writeJSON_recorder_ok detect status v b hv rw logs h hs]
  simp [sentJSON, ResponseRecorder.WriteHeader, h, lookup_Set_self]

theorem Healthz_exec {σ : Type} (W : ResponseWriter σ) (r : Request) (w : σ)
    (logs : List LogRecord) :
    exec W (handlers.Healthz r) w logs =
      exec W (handlers.writeJSON 200 (.HealthResponse (ascii "ok"))) w
        (logs ++ [{ msg := ascii "liveness probe hit", attrs := [] }]) := rfl

theorem Readyz_exec {σ : Type} (W : ResponseWriter σ) (r : Request) (w : σ)
    (logs : List LogRecord) :
    exec W (handlers.Readyz r) w logs =
      exec W (handlers.writeJSON 200 (.HealthResponse (ascii "ready"))) w
        (logs ++ [{ msg := ascii "readiness probe hit", attrs := [] }]) := rfl

theorem Info_exec {σ : Type} (W : ResponseWriter σ) (vars : version.Vars)
    (runtimeVersion : Bytes) (r : Request) (w : σ) (logs : List LogRecord) :
    exec W (handlers.Info vars runtimeVersion r) w logs =
      exec W (handlers.writeJSON 200 (.Info (version.Get vars runtimeVersion))) w
        (logs ++ [{ msg := ascii "info endpoint hit",
                    attrs := [(ascii "tag", .String vars.Tag),
                              (ascii "commit", .String vars.Commit)] }]) := rfl

/-- The three handlers on a recorder whose header is not yet written. -/
theorem handlers_sentJSON (detect : Bytes → Bytes) (vars : version.Vars)
    (runtimeVersion : Bytes) (r : Request) (rw : ResponseRecorder) (logs : List LogRecord)
    (h : rw.wroteHeader = false) :
    sentJSON (exec (recorderWriter detect) (handlers.Healthz r) rw logs).1 200 ∧
    sentJSON (exec (recorderWriter detect) (handlers.Readyz r) rw logs).1 200 ∧
    sentJSON (exec (recorderWriter detect)
      (handlers.Info vars runtimeVersion r) rw logs).1 200 := by
  refine ⟨?_, ?_, ?_⟩
  · rw [Healthz_exec]
    exact writeJSON_sentJSON detect 200 _ _ marshal_ok rw _ h bodyAllowed_200
  · rw [Readyz_exec]
    exact writeJSON_sentJSON detect 200 _ _ marshal_ready rw _ h bodyAllowed_200
  · rw [Info_exec]
    exact writeJSON_sentJSON detect 200 (.Info (version.Get vars runtimeVersion)) _ rfl rw _ h
      bodyAllowed_200

/-- On a recorder whose header was already sent with 204, the write of
`writeJSON` fails with `http.ErrBodyNotAllowed`, the error branch runs, and
the body recorded for `Healthz` is the object followed by the error text. -/
theorem Healthz_after_204 :
    (exec (recorderWriter detectPlain) (handlers.Healthz getHealthz)
        (ResponseRecorder.WriteHeader NewRecorder 204) []).1.Body
      = ascii "\x7b\"status\":\"ok\"\x7d\n\x7b\"error\":\"internal server error\"\x7d\n" ∧
    (exec (recorderWriter detectPlain) (handlers.Healthz getHealthz)
        (ResponseRecorder.WriteHeader NewRecorder 204) []).1.Code = 204 := by
  decide

/-! ## Lemmas: the logging middleware -/

/-- Running a handler through the `responseRecorder` acts on the wrapped
writer and on the log exactly as running it on that writer directly. -/
theorem exec_responseRecorder {σ : Type} (W : ResponseWriter σ) (p : Prog) :
    ∀ (rr : handlers.responseRecorder σ) (logs : List LogRecord),
      (exec (handlers.responseRecorder.writer W) p rr logs).1.ResponseWriter
          = (exec W p rr.ResponseWriter logs).1 ∧
      (exec (handlers.responseRecorder.writer W) p rr logs).2
          = (exec W p rr.ResponseWriter logs).2 := by
  induction p with
  | ret => intro rr logs; exact ⟨rfl, rfl⟩
  | getHeader k ih => intro rr logs; exact ih _ rr logs
  | setHeader f p ih => intro rr logs; exact ih _ logs
  | WriteHeader code p ih => intro rr logs; exact ih _ logs
  | Write b k ih => intro rr logs; exact ih _ _ _ logs
  | log r p ih => intro rr logs; exact ih rr _

/-! ## Lemmas: routing -/

theorem RequestLogger_fst {σ : Type} (W : ResponseWriter σ) (H : HandlerFunc)
    (r : Request) (w : σ) (logs : List LogRecord) (start finish : Int) :
    (handlers.RequestLogger start finish H W r w logs).1 = (exec W (H r) w logs).1 :=
  (exec_responseRecorder W (H r) { ResponseWriter := w, statusCode := 200 } logs).1

/-- On a GET request, chi's lookup in the tree of `newRouter` picks the
handler of the specification's table for the routing path. -/
theorem routeHTTP_get (vars : version.Vars) (runtimeVersion : Bytes) (r : Request)
    (hm : r.Method = ascii "GET") :
    chi.routeHTTP (main.routes vars runtimeVersion) r
      = specDispatch vars runtimeVersion (chi.routePath r) r := by
  have hmm : chi.methodMap.contains (ascii "GET") = true := by decide
  have h1 : (ascii "/healthz" == ascii "/readyz") = false := by decide
  have h2 : (ascii "/healthz" == ascii "/info") = false := by decide
  have h3 : (ascii "/readyz" == ascii "/info") = false := by decide
  have n1 : ascii "/readyz" ≠ ascii "/healthz" := by decide
  have n2 : ascii "/info" ≠ ascii "/healthz" := by decide
  have n3 : ascii "/info" ≠ ascii "/readyz" := by decide
  unfold chi.routeHTTP specDispatch
  rw [hm, hmm]
  by_cases p1 : chi.routePath r = ascii "/healthz"
  · simp [p1, main.routes]
  · by_cases p2 : chi.routePath r = ascii "/readyz"
    · simp [p2, main.routes, h1, n1]
    · by_cases p3 : chi.routePath r = ascii "/info"
      · simp [p3, main.routes, h2, h3, n2, n3]
      · have q1 : (ascii "/healthz" == chi.routePath r) = false := by
          simpa [beq_eq_false_iff_ne] using fun h => p1 h.symm
        have q2 : (ascii "/readyz" == chi.routePath r) = false := by
          simpa [beq_eq_false_iff_ne] using fun h => p2 h.symm
        have q3 : (ascii "/info" == chi.routePath r) = false := by
          simpa [beq_eq_false_iff_ne] using fun h => p3 h.symm
        simp [p1, p2, p3, q1, q2, q3, main.routes]

/-- The function `http.NotFound` on a recorder whose header is not yet written sends 404. -/
theorem NotFound_code (detect : Bytes → Bytes) (r : Request) (rw : ResponseRecorder)
    (logs : List LogRecord) (h : rw.wroteHeader = false) :
    (exec (recorderWriter detect) (chi.NotFound r) rw logs).1.Code = 404 := by
  have h404 : bodyAllowedForStatus 404 = true := by decide
  simp [chi.NotFound, httpError, exec, recorderWriter, ResponseRecorder.Write,
    ResponseRecorder.writeHeader, ResponseRecorder.WriteHeader, h, h404]

/-! ## Lemmas: where the logged status and the fallback are right -/

/-- The status captured through the `responseRecorder` equals the status a
recorder sends, for a handler that calls `WriteHeader` before any other call
that could send the header. -/
theorem statusCode_eq_Code_of_WriteHeader_first (detect : Bytes → Bytes)
    (f : Header → Header) (code : Int) (b : Bytes) (rw : ResponseRecorder) (sc : Int)
    (logs : List LogRecord) (hw : rw.wroteHeader = false) :
    (exec (handlers.responseRecorder.writer (recorderWriter detect))
        (.setHeader f (.WriteHeader code (.Write b (fun _ _ => .ret))))
        { ResponseWriter := rw, statusCode := sc } logs).1.statusCode
      = (exec (recorderWriter detect)
          (.setHeader f (.WriteHeader code (.Write b (fun _ _ => .ret)))) rw logs).1.Code := by
  by_cases hs : bodyAllowedForStatus code = true <;>
    simp [exec, handlers.responseRecorder.writer, recorderWriter, ResponseRecorder.Write,
      ResponseRecorder.writeHeader, ResponseRecorder.WriteHeader, hw, hs]

theorem writeJSON_prog_ok (status : Int) (v : Value) (b : Bytes) (hv : Marshal v = .ok b) :
    ∀ {σ : Type} (W : ResponseWriter σ) (w : σ) (logs : List LogRecord),
      (W.Write (W.WriteHeader (W.putHeader w
          (Header.Set (W.Header w) (ascii "Content-Type") (ascii "application/json"))) status)
          (b ++ [10])).2.2 = none →
      exec W (handlers.writeJSON status v) w logs
        = exec W (.setHeader (fun h => Header.Set h (ascii "Content-Type")
              (ascii "application/json"))
            (.WriteHeader status (.Write (b ++ [10]) (fun _ _ => .ret)))) w logs := by
  intro σ W w logs hok
  simp only [handlers.writeJSON, Encode, hv, exec, hok]

theorem writeJSON_status (detect : Bytes → Bytes) (status : Int) (v : Value) (b : Bytes)
    (hv : Marshal v = .ok b) (rw : ResponseRecorder) (sc : Int) (logs : List LogRecord)
    (hw : rw.wroteHeader = false) (hs : bodyAllowedForStatus status = true) :
    (exec (handlers.responseRecorder.writer (recorderWriter detect))
        (handlers.writeJSON status v) { ResponseWriter := rw, statusCode := sc } logs).1.statusCode
      = (exec (recorderWriter detect) (handlers.writeJSON status v) rw logs).1.Code := by
  have hok : ((recorderWriter detect).Write ((recorderWriter detect).WriteHeader
      ((recorderWriter detect).putHeader rw
        (Header.Set ((recorderWriter detect).Header rw) (ascii "Content-Type")
          (ascii "application/json"))) status) (b ++ [10])).2.2 = none := by
    simp [recorderWriter, ResponseRecorder.Write, ResponseRecorder.writeHeader,
      ResponseRecorder.WriteHeader, hw, hs]
  have hok2 : ((handlers.responseRecorder.writer (recorderWriter detect)).Write
      ((handlers.responseRecorder.writer (recorderWriter detect)).WriteHeader
        ((handlers.responseRecorder.writer (recorderWriter detect)).putHeader
          { ResponseWriter := rw, statusCode := sc }
          (Header.Set ((handlers.responseRecorder.writer (recorderWriter detect)).Header
              { ResponseWriter := rw, statusCode := sc }) (ascii "Content-Type")
            (ascii "application/json"))) status) (b ++ [10])).2.2 = none := by
    simp [handlers.responseRecorder.writer, recorderWriter, ResponseRecorder.Write,
      ResponseRecorder.writeHeader, ResponseRecorder.WriteHeader, hw, hs]
  rw [writeJSON_prog_ok status v b hv (handlers.responseRecorder.writer (recorderWriter detect))
      { ResponseWriter := rw, statusCode := sc } logs hok2,
    writeJSON_prog_ok status v b hv (recorderWriter detect) rw logs hok]
  exact statusCode_eq_Code_of_WriteHeader_first detect _ status _ rw sc logs hw

/-- For every request, of any method and path, the status the middleware of
`newRouter` captures is the status the recorder sends. -/
theorem routeHTTP_status (detect : Bytes → Bytes) (vars : version.Vars)
    (runtimeVersion : Bytes) (r : Request) (rw : ResponseRecorder) (sc : Int)
    (logs : List LogRecord) (hw : rw.wroteHeader = false) :
    (exec (handlers.responseRecorder.writer (recorderWriter detect))
        (chi.routeHTTP (main.routes vars runtimeVersion) r)
        { ResponseWriter := rw, statusCode := sc } logs).1.statusCode
      = (exec (recorderWriter detect)
          (chi.routeHTTP (main.routes vars runtimeVersion) r) rw logs).1.Code := by
  unfold chi.routeHTTP
  by_cases hmeth : (!chi.methodMap.contains r.Method) = true
  · rw [if_pos hmeth]
    exact statusCode_eq_Code_of_WriteHeader_first detect _ 405 [] rw sc logs hw
  · rw [if_neg hmeth]
    cases hfind : List.find? (fun e => e.pattern == chi.routePath r && e.method == r.Method)
        (main.routes vars runtimeVersion) with
    | some e =>
      have hmem := List.mem_of_find?_eq_some hfind
      simp only [main.routes, List.mem_cons, List.mem_singleton, List.not_mem_nil,
        or_false] at hmem
      rcases hmem with rfl | rfl | rfl
      · exact writeJSON_status detect 200 _ _ marshal_ok rw sc _ hw bodyAllowed_200
      · exact writeJSON_status detect 200 _ _ marshal_ready rw sc _ hw bodyAllowed_200
      · exact writeJSON_status detect 200 (.Info (version.Get vars runtimeVersion)) _ rfl
          rw sc _ hw bodyAllowed_200
    | none =>
      by_cases hany : ((main.routes vars runtimeVersion).any
          fun e => e.pattern == chi.routePath r) = true
      · simp only [if_pos hany]
        exact statusCode_eq_Code_of_WriteHeader_first detect _ 405 [] rw sc logs hw
      · simp only [if_neg hany]
        exact statusCode_eq_Code_of_WriteHeader_first detect _ 404 _ rw sc logs hw

/-- For every request, whatever its method and path, served by the router
of `newRouter` on a recorder whose header is not yet written, the log ends
with exactly one record of the middleware, whose status is the status code of
the response. -/
theorem router_logs_response_status (detect : Bytes → Bytes) (vars : version.Vars)
    (runtimeVersion : Bytes) (start finish : Int) (r : Request) (rw : ResponseRecorder)
    (logs : List LogRecord) (hw : rw.wroteHeader = false) :
    (main.newRouter vars runtimeVersion start finish (recorderWriter detect) r rw logs).2
      = (exec (recorderWriter detect)
            (chi.routeHTTP (main.routes vars runtimeVersion) r) rw logs).2 ++
        [handlers.requestRecord r
          (main.newRouter vars runtimeVersion start finish (recorderWriter detect) r rw
            logs).1.Code (finish - start)] := by
  have hsim := exec_responseRecorder (recorderWriter detect)
    (chi.routeHTTP (main.routes vars runtimeVersion) r)
    { ResponseWriter := rw, statusCode := 200 } logs
  have hst := routeHTTP_status detect vars runtimeVersion r rw 200 logs hw
  simp only [main.newRouter, handlers.RequestLogger]
  rw [hsim.2, hst, hsim.1]

/-- On the `errorWriter` of the tests, whose `Write` always fails,
`writeJSON` ends for every status, value and header map with status code 500
and the single `Content-Type` value `text/plain; charset=utf-8`. -/
theorem errorWriter_fallback (status : Int) (v : Value) (e : errorWriter)
    (logs : List LogRecord) :
    (exec errorWriterWriter (handlers.writeJSON status v) e logs).1.statusCode = 500 ∧
    (exec errorWriterWriter (handlers.writeJSON status v) e logs).1.header.lookup
        (ascii "Content-Type") = some [ascii "text/plain; charset=utf-8"] := by
  have hne : (ascii "Content-Type" == ascii "X-Content-Type-Options") = false := by decide
  cases hv : Marshal v <;>
    simp [handlers.writeJSON, Encode, hv, exec, errorWriterWriter, httpError, Header.Set,
      Header.Del, List.lookup, hne]


/-! ## Lemmas: UTF-8 decoding and encoding -/

theorem hex_lt (n : Nat) (h : n < 16) :
    hexVal (hex n) = some n ∧ isHexDigit (hex n) = true := by
  interval_cases n <;> exact ⟨rfl, rfl⟩

theorem utf8first_some (b0 sz lo hi : Nat) (h : utf8first b0 = some (sz, lo, hi)) :
    (sz = 2 ∧ lo = 0x80 ∧ hi = 0xBF ∧ 0xC2 ≤ b0 ∧ b0 ≤ 0xDF) ∨
    (sz = 3 ∧ 0x80 ≤ lo ∧ hi ≤ 0xBF ∧ 0xE0 ≤ b0 ∧ b0 ≤ 0xEF ∧
      (b0 = 0xE0 → lo = 0xA0) ∧ (b0 = 0xED → hi = 0x9F) ∧
      (b0 ≠ 0xE0 → lo = 0x80) ∧ (b0 ≠ 0xED → hi = 0xBF)) ∨
    (sz = 4 ∧ 0x80 ≤ lo ∧ hi ≤ 0xBF ∧ 0xF0 ≤ b0 ∧ b0 ≤ 0xF4 ∧
      (b0 = 0xF0 → lo = 0x90) ∧ (b0 = 0xF4 → hi = 0x8F) ∧
      (b0 ≠ 0xF0 → lo = 0x80) ∧ (b0 ≠ 0xF4 → hi = 0xBF)) := by
  unfold utf8first at h
  split_ifs at h <;>
    simp only [Option.some.injEq, Prod.mk.injEq, reduceCtorEq] at h <;>
    obtain ⟨rfl, rfl, rfl⟩ := h <;> omega

/-- A lead byte outside ASCII whose decoding is not an error starts a
well-formed sequence of two, three or four bytes. -/
theorem DecodeRune_shape (b0 : Nat) (t : Bytes) (h80 : ¬ b0 < 0x80)
    (hv : ¬ ((DecodeRune (b0 :: t)).1 = RuneError ∧ (DecodeRune (b0 :: t)).2 = 1)) :
    (∃ b1 t1, t = b1 :: t1 ∧ 0xC2 ≤ b0 ∧ b0 ≤ 0xDF ∧ 0x80 ≤ b1 ∧ b1 ≤ 0xBF) ∨
    (∃ b1 b2 t1, t = b1 :: b2 :: t1 ∧ 0xE0 ≤ b0 ∧ b0 ≤ 0xEF ∧ 0x80 ≤ b1 ∧ b1 ≤ 0xBF ∧
        (b0 = 0xE0 → 0xA0 ≤ b1) ∧ (b0 = 0xED → b1 ≤ 0x9F) ∧ 0x80 ≤ b2 ∧ b2 ≤ 0xBF) ∨
    (∃ b1 b2 b3 t1, t = b1 :: b2 :: b3 :: t1 ∧ 0xF0 ≤ b0 ∧ b0 ≤ 0xF4 ∧ 0x80 ≤ b1 ∧ b1 ≤ 0xBF ∧
        (b0 = 0xF0 → 0x90 ≤ b1) ∧ (b0 = 0xF4 → b1 ≤ 0x8F) ∧ 0x80 ≤ b2 ∧ b2 ≤ 0xBF ∧
        0x80 ≤ b3 ∧ b3 ≤ 0xBF) := by
  cases hf : utf8first b0 with
  | none =>
    exfalso; apply hv
    simp only [DecodeRune, h80, if_false, hf, and_self]
  | some x =>
    obtain ⟨sz, lo, hi⟩ := x
    simp only [DecodeRune, h80, if_false, hf] at hv
    rcases utf8first_some b0 sz lo hi hf with
      ⟨rfl, rfl, rfl, h1, h2⟩ | ⟨rfl, h1, h2, h3, h4, h5, h6, h7, h8⟩ |
      ⟨rfl, h1, h2, h3, h4, h5, h6, h7, h8⟩
    · left
      rcases t with _ | ⟨b1, t1⟩
      · simp at hv
      · refine ⟨b1, t1, rfl, h1, h2, ?_⟩
        simp only [List.getD_cons_succ, List.getD_cons_zero] at hv
        by_contra hc
        apply hv
        rw [if_neg (by simp), if_pos (by omega)]
        exact ⟨rfl, rfl⟩
    · right; left
      rcases t with _ | ⟨b1, _ | ⟨b2, t1⟩⟩
      · simp at hv
      · simp at hv
      · refine ⟨b1, b2, t1, rfl, h3, h4, ?_⟩
        simp only [List.getD_cons_succ, List.getD_cons_zero] at hv
        by_contra hc
        apply hv
        rw [if_neg (by simp)]
        by_cases c1 : b1 < lo ∨ hi < b1
        · rw [if_pos c1]; exact ⟨rfl, rfl⟩
        · rw [if_neg c1, if_neg (by omega), if_pos (by omega)]
          exact ⟨rfl, rfl⟩
    · right; right
      rcases t with _ | ⟨b1, _ | ⟨b2, _ | ⟨b3, t1⟩⟩⟩
      · simp at hv
      · simp at hv
      · simp at hv
      · refine ⟨b1, b2, b3, t1, rfl, h3, h4, ?_⟩
        simp only [List.getD_cons_succ, List.getD_cons_zero] at hv
        by_contra hc
        apply hv
        rw [if_neg (by simp)]
        by_cases c1 : b1 < lo ∨ hi < b1
        · rw [if_pos c1]; exact ⟨rfl, rfl⟩
        · rw [if_neg c1, if_neg (by omega)]
          by_cases c2 : b2 < 128 ∨ 191 < b2
          · rw [if_pos c2]; exact ⟨rfl, rfl⟩
          · rw [if_neg c2, if_neg (by omega), if_pos (by omega)]
            exact ⟨rfl, rfl⟩

theorem utf8first_none (b0 : Nat) (h : utf8first b0 = none) : b0 < 0xC2 ∨ 0xF4 < b0 := by
  unfold utf8first at h
  split_ifs at h <;> omega

theorem DecodeRune_two (b0 b1 : Nat) (t : Bytes) (h0 : 0xC2 ≤ b0) (h1 : b0 ≤ 0xDF)
    (h2 : 0x80 ≤ b1) (h3 : b1 ≤ 0xBF) :
    DecodeRune (b0 :: b1 :: t) = (b0 % 32 * 64 + b1 % 64, 2) := by
  cases hf : utf8first b0 with
  | none => have := utf8first_none b0 hf; omega
  | some x =>
    obtain ⟨sz, lo, hi⟩ := x
    rcases utf8first_some b0 sz lo hi hf with
      ⟨rfl, rfl, rfl, _, _⟩ | ⟨rfl, _, _, _, _, _, _, _, _⟩ | ⟨rfl, _, _, _, _, _, _, _, _⟩
    · simp only [DecodeRune, hf, List.getD_cons_succ, List.getD_cons_zero]
      rw [if_neg (by omega), if_neg (by simp), if_neg (by omega), if_pos (by omega)]
    · omega
    · omega

theorem DecodeRune_three (b0 b1 b2 : Nat) (t : Bytes) (h0 : 0xE0 ≤ b0) (h1 : b0 ≤ 0xEF)
    (h2 : 0x80 ≤ b1) (h3 : b1 ≤ 0xBF) (h4 : b0 = 0xE0 → 0xA0 ≤ b1) (h5 : b0 = 0xED → b1 ≤ 0x9F)
    (h6 : 0x80 ≤ b2) (h7 : b2 ≤ 0xBF) :
    DecodeRune (b0 :: b1 :: b2 :: t) = (b0 % 16 * 4096 + b1 % 64 * 64 + b2 % 64, 3) := by
  cases hf : utf8first b0 with
  | none => have := utf8first_none b0 hf; omega
  | some x =>
    obtain ⟨sz, lo, hi⟩ := x
    rcases utf8first_some b0 sz lo hi hf with
      ⟨rfl, rfl, rfl, _, _⟩ | ⟨rfl, _, _, _, _, _, _, _, _⟩ | ⟨rfl, _, _, _, _, _, _, _, _⟩
    · omega
    · simp only [DecodeRune, hf, List.getD_cons_succ, List.getD_cons_zero]
      rw [if_neg (by omega), if_neg (by simp), if_neg (by omega), if_neg (by omega),
        if_neg (by omega), if_pos (by omega)]
    · omega

theorem DecodeRune_four (b0 b1 b2 b3 : Nat) (t : Bytes) (h0 : 0xF0 ≤ b0) (h1 : b0 ≤ 0xF4)
    (h2 : 0x80 ≤ b1) (h3 : b1 ≤ 0xBF) (h4 : b0 = 0xF0 → 0x90 ≤ b1) (h5 : b0 = 0xF4 → b1 ≤ 0x8F)
    (h6 : 0x80 ≤ b2) (h7 : b2 ≤ 0xBF) (h8 : 0x80 ≤ b3) (h9 : b3 ≤ 0xBF) :
    DecodeRune (b0 :: b1 :: b2 :: b3 :: t)
      = (b0 % 8 * 262144 + b1 % 64 * 4096 + b2 % 64 * 64 + b3 % 64, 4) := by
  cases hf : utf8first b0 with
  | none => have := utf8first_none b0 hf; omega
  | some x =>
    obtain ⟨sz, lo, hi⟩ := x
    rcases utf8first_some b0 sz lo hi hf with
      ⟨rfl, rfl, rfl, _, _⟩ | ⟨rfl, _, _, _, _, _, _, _, _⟩ | ⟨rfl, _, _, _, _, _, _, _, _⟩
    · omega
    · omega
    · simp only [DecodeRune, hf, List.getD_cons_succ, List.getD_cons_zero]
      rw [if_neg (by omega), if_neg (by simp), if_neg (by omega), if_neg (by omega),
        if_neg (by omega), if_neg (by omega), if_neg (by omega)]

theorem EncodeRune_two (b0 b1 : Nat) (h0 : 0xC2 ≤ b0) (h1 : b0 ≤ 0xDF)
    (h2 : 0x80 ≤ b1) (h3 : b1 ≤ 0xBF) :
    EncodeRune (b0 % 32 * 64 + b1 % 64) = [b0, b1] := by
  unfold EncodeRune
  rw [if_neg (by omega), if_pos (by omega)]
  congr 1
  · omega
  · congr 1; omega

theorem EncodeRune_three (b0 b1 b2 : Nat) (h0 : 0xE0 ≤ b0) (h1 : b0 ≤ 0xEF)
    (h2 : 0x80 ≤ b1) (h3 : b1 ≤ 0xBF) (h4 : b0 = 0xE0 → 0xA0 ≤ b1) (h5 : b0 = 0xED → b1 ≤ 0x9F)
    (h6 : 0x80 ≤ b2) (h7 : b2 ≤ 0xBF) :
    EncodeRune (b0 % 16 * 4096 + b1 % 64 * 64 + b2 % 64) = [b0, b1, b2] := by
  unfold EncodeRune
  rw [if_neg (by omega), if_neg (by omega), if_neg (by omega), if_pos (by omega)]
  congr 1
  · omega
  · congr 1
    · omega
    · congr 1; omega

theorem EncodeRune_four (b0 b1 b2 b3 : Nat) (h0 : 0xF0 ≤ b0) (h1 : b0 ≤ 0xF4)
    (h2 : 0x80 ≤ b1) (h3 : b1 ≤ 0xBF) (h4 : b0 = 0xF0 → 0x90 ≤ b1) (h5 : b0 = 0xF4 → b1 ≤ 0x8F)
    (h6 : 0x80 ≤ b2) (h7 : b2 ≤ 0xBF) (h8 : 0x80 ≤ b3) (h9 : b3 ≤ 0xBF) :
    EncodeRune (b0 % 8 * 262144 + b1 % 64 * 4096 + b2 % 64 * 64 + b3 % 64)
      = [b0, b1, b2, b3] := by
  unfold EncodeRune
  rw [if_neg (by omega), if_neg (by omega), if_neg (by omega), if_neg (by omega)]
  congr 1
  · omega
  · congr 1
    · omega
    · congr 1
      · omega
      · congr 1; omega


/-! ## Lemmas: one character through `appendString` and `unquoteBytes` -/

theorem DecodeRune_take (s : Bytes) : DecodeRune (s.take 4) = DecodeRune s := by
  rcases s with _ | ⟨a, _ | ⟨b, _ | ⟨c, _ | ⟨d, t⟩⟩⟩⟩
  · rfl
  · rfl
  · rfl
  · rfl
  · show DecodeRune [a, b, c, d] = DecodeRune (a :: b :: c :: d :: t)
    by_cases h80 : a < 0x80
    · simp only [DecodeRune, h80, if_true]
    · cases hf : utf8first a with
      | none => simp only [DecodeRune, h80, if_false, hf]
      | some x =>
        obtain ⟨sz, lo, hi⟩ := x
        have hsz : sz ≤ 4 := by
          rcases utf8first_some a sz lo hi hf with h | h | h <;> omega
        simp only [DecodeRune, h80, if_false, hf, List.getD_cons_succ, List.getD_cons_zero,
          List.length_cons, List.length_nil]
        have e1 : ¬ (0 + 1 + 1 + 1 + 1 < sz) := by omega
        have e2 : ¬ (t.length + 1 + 1 + 1 + 1 < sz) := by omega
        simp only [e1, e2, if_false]

theorem getu4_cons (c0 c1 c2 c3 d0 d1 d2 d3 : Nat) (u : Bytes)
    (h0 : hexVal c0 = some d0) (h1 : hexVal c1 = some d1) (h2 : hexVal c2 = some d2)
    (h3 : hexVal c3 = some d3) :
    getu4 (92 :: 117 :: c0 :: c1 :: c2 :: c3 :: u)
      = some (((d0 * 16 + d1) * 16 + d2) * 16 + d3) := by
  simp [getu4, h0, h1, h2, h3]

/-- The escape written for an ASCII byte is read back as that byte. -/
theorem unquoteStep_ascii (b : Nat) (t u : Bytes) (hb : b < 0x80) :
    unquoteStep ((appendStringStep (b :: t)).1 ++ u)
      = some ([b], (appendStringStep (b :: t)).1.length) ∧
    (appendStringStep (b :: t)).2 = 1 := by
  unfold appendStringStep
  simp only [hb, if_true]
  split_ifs with h1 h2 h3 h4 h5 h6 h7
  · simp only [htmlSafeSet, Bool.and_eq_true, decide_eq_true_eq, Bool.not_eq_true',
      Bool.or_eq_false_iff, beq_eq_false_iff_ne, ne_eq] at h1
    refine ⟨?_, rfl⟩
    simp only [List.singleton_append, unquoteStep, List.length_singleton]
    rw [if_neg (by omega), if_neg (by omega), if_pos hb]
  · refine ⟨?_, rfl⟩
    rcases h2 with rfl | rfl <;> simp [unquoteStep]
  · subst h3; exact ⟨by simp [unquoteStep], rfl⟩
  · subst h4; exact ⟨by simp [unquoteStep], rfl⟩
  · subst h5; exact ⟨by simp [unquoteStep], rfl⟩
  · subst h6; exact ⟨by simp [unquoteStep], rfl⟩
  · subst h7; exact ⟨by simp [unquoteStep], rfl⟩
  · refine ⟨?_, rfl⟩
    have e0 : hexVal 48 = some 0 := rfl
    have e1 := (hex_lt (b / 16) (by omega)).1
    have e2 := (hex_lt (b % 16) (by omega)).1
    have hg := getu4_cons 48 48 (hex (b / 16)) (hex (b % 16)) 0 0 (b / 16) (b % 16) u e0 e0 e1 e2
    have hval : ((0 * 16 + 0) * 16 + b / 16) * 16 + b % 16 = b := by omega
    rw [hval] at hg
    have hs : IsSurrogate b = false := by
      simp only [IsSurrogate, Bool.and_eq_false_iff, decide_eq_false_iff_not]; omega
    have he : EncodeRune b = [b] := by
      unfold EncodeRune; rw [if_pos (by omega)]
    simp only [List.cons_append, List.nil_append, unquoteStep, hg, hs, he, List.length_cons,
      List.length_nil]
    simp

theorem unquoteStep_raw (b : Nat) (t : Bytes) (h80 : ¬ b < 0x80) :
    unquoteStep (b :: t) = some (EncodeRune (DecodeRune (b :: t)).1, (DecodeRune (b :: t)).2) := by
  unfold unquoteStep
  simp only
  rw [if_neg (by omega), if_neg (by omega), if_neg h80]

theorem unquoteStep_u202 (c : Nat) (u : Bytes) (hc : c = 0x2028 ∨ c = 0x2029) :
    unquoteStep ((ascii "\\u202" ++ [hex (c % 16)]) ++ u) = some (EncodeRune c, 6) := by
  have e2 : hexVal 50 = some 2 := rfl
  have e0 : hexVal 48 = some 0 := rfl
  have e3 := (hex_lt (c % 16) (by omega)).1
  have hg := getu4_cons 50 48 50 (hex (c % 16)) 2 0 2 (c % 16) u e2 e0 e2 e3
  have hval : ((2 * 16 + 0) * 16 + 2) * 16 + c % 16 = c := by omega
  rw [hval] at hg
  have hs : IsSurrogate c = false := by
    simp only [IsSurrogate, Bool.and_eq_false_iff, decide_eq_false_iff_not]; omega
  show unquoteStep (92 :: 117 :: 50 :: 48 :: 50 :: hex (c % 16) :: u) = _
  simp only [unquoteStep, hg, hs]
  simp

/-- What `appendString` writes for a well-formed multi-byte character is read
back by `unquoteBytes` as the bytes of that character. -/
theorem unquoteStep_multi (b : Nat) (t u : Bytes) (h80 : ¬ b < 0x80)
    (hv : ¬ ((DecodeRune (b :: t)).1 = RuneError ∧ (DecodeRune (b :: t)).2 = 1)) :
    unquoteStep ((appendStringStep (b :: t)).1 ++ u)
      = some ((b :: t).take (appendStringStep (b :: t)).2,
          (appendStringStep (b :: t)).1.length) ∧
    (appendStringStep (b :: t)).2 = (DecodeRune (b :: t)).2 ∧
    1 ≤ (appendStringStep (b :: t)).1.length ∧ 1 ≤ (appendStringStep (b :: t)).2 := by
  have hstep : appendStringStep (b :: t) =
      if (DecodeRune (b :: t)).1 = 0x2028 ∨ (DecodeRune (b :: t)).1 = 0x2029 then
        (ascii "\\u202" ++ [hex ((DecodeRune (b :: t)).1 % 16)], (DecodeRune (b :: t)).2)
      else ((b :: t).take (DecodeRune (b :: t)).2, (DecodeRune (b :: t)).2) := by
    unfold appendStringStep
    simp only [h80, if_false, DecodeRune_take]
    rw [if_neg hv]
  have key : ∀ (chunk : Bytes) (n : Nat) (v : Nat) (t1 : Bytes),
      b :: t = chunk ++ t1 → chunk.length = n → 1 ≤ n →
      (∀ w, DecodeRune (chunk ++ w) = (v, n)) → EncodeRune v = chunk →
      (∃ b' c', chunk = b' :: c' ∧ ¬ b' < 0x80) →
      unquoteStep ((appendStringStep (b :: t)).1 ++ u)
        = some ((b :: t).take (appendStringStep (b :: t)).2,
            (appendStringStep (b :: t)).1.length) ∧
      (appendStringStep (b :: t)).2 = (DecodeRune (b :: t)).2 ∧
      1 ≤ (appendStringStep (b :: t)).1.length ∧ 1 ≤ (appendStringStep (b :: t)).2 := by
    intro chunk n v t1 hsplit hlen hn hdec henc hhead
    have hd : DecodeRune (b :: t) = (v, n) := by rw [hsplit]; exact hdec t1
    have htake : (b :: t).take n = chunk := by
      rw [hsplit, ← hlen]; simp
    rw [hstep, hd]
    simp only
    by_cases hc : v = 0x2028 ∨ v = 0x2029
    · rw [if_pos hc]
      simp only
      refine ⟨?_, trivial, by simp, hn⟩
      rw [unquoteStep_u202 v u hc, htake, henc]
      rfl
    · rw [if_neg hc]
      simp only
      refine ⟨?_, trivial, by rw [htake, hlen]; exact hn, hn⟩
      rw [htake]
      obtain ⟨b', c', rfl, hb'⟩ := hhead
      rw [List.cons_append, unquoteStep_raw b' _ hb', ← List.cons_append, hdec u, henc, hlen]
  rcases DecodeRune_shape b t h80 hv with
    ⟨b1, t1, rfl, h0, h1, h2, h3⟩ | ⟨b1, b2, t1, rfl, h0, h1, h2, h3, h4, h5, h6, h7⟩ |
    ⟨b1, b2, b3, t1, rfl, h0, h1, h2, h3, h4, h5, h6, h7, h8, h9⟩
  · exact key [b, b1] 2 _ t1 rfl rfl (by omega)
      (fun w => DecodeRune_two b b1 w h0 h1 h2 h3) (EncodeRune_two b b1 h0 h1 h2 h3)
      ⟨b, [b1], rfl, h80⟩
  · exact key [b, b1, b2] 3 _ t1 rfl rfl (by omega)
      (fun w => DecodeRune_three b b1 b2 w h0 h1 h2 h3 h4 h5 h6 h7)
      (EncodeRune_three b b1 b2 h0 h1 h2 h3 h4 h5 h6 h7) ⟨b, [b1, b2], rfl, h80⟩
  · exact key [b, b1, b2, b3] 4 _ t1 rfl rfl (by omega)
      (fun w => DecodeRune_four b b1 b2 b3 w h0 h1 h2 h3 h4 h5 h6 h7 h8 h9)
      (EncodeRune_four b b1 b2 b3 h0 h1 h2 h3 h4 h5 h6 h7 h8 h9) ⟨b, [b1, b2, b3], rfl, h80⟩

theorem DecodeRune_ascii (b : Nat) (t : Bytes) (hb : b < 0x80) : DecodeRune (b :: t) = (b, 1) := by
  simp only [DecodeRune, hb, if_true]

/-- One character of a string whose decoding is not an error: what
`appendString` writes for it, followed by anything, is read back by one step
of `unquoteBytes` as the bytes of the character. -/
theorem step_roundtrip (b : Nat) (t u : Bytes)
    (hv : ¬ ((DecodeRune (b :: t)).1 = RuneError ∧ (DecodeRune (b :: t)).2 = 1)) :
    unquoteStep ((appendStringStep (b :: t)).1 ++ u)
      = some ((b :: t).take (appendStringStep (b :: t)).2,
          (appendStringStep (b :: t)).1.length) ∧
    (appendStringStep (b :: t)).2 = (DecodeRune (b :: t)).2 ∧
    1 ≤ (appendStringStep (b :: t)).1.length ∧ 1 ≤ (appendStringStep (b :: t)).2 := by
  by_cases hb : b < 0x80
  · have h := unquoteStep_ascii b t u hb
    have h0 := (unquoteStep_ascii b t [] hb).1
    refine ⟨?_, ?_, ?_, by omega⟩
    · rw [h.1, h.2]; rfl
    · rw [h.2, DecodeRune_ascii b t hb]
    · rcases hout : (appendStringStep (b :: t)).1 with _ | ⟨x, xs⟩
      · rw [hout] at h0; simp [unquoteStep] at h0
      · simp
  · exact unquoteStep_multi b t u hb hv

/-- Reading back what `appendString` wrote between the quotes gives the
string, when the string is valid UTF-8. -/
theorem unquoteLoop_appendStringLoop :
    ∀ (fuel : Nat) (s : Bytes), s.length ≤ fuel → validLoop fuel s = true →
      ∀ fuel2, (appendStringLoop fuel s).length ≤ fuel2 →
        unquoteLoop fuel2 (appendStringLoop fuel s) = some s := by
  intro fuel
  induction fuel with
  | zero =>
    intro s hlen _ fuel2 _
    have hs : s = [] := List.length_eq_zero.mp (by omega)
    subst hs
    cases fuel2 <;> simp [appendStringLoop, unquoteLoop]
  | succ fuel ih =>
    intro s hlen hval fuel2 hf2
    rcases s with _ | ⟨b, t⟩
    · cases fuel2 <;> simp [appendStringLoop, unquoteLoop]
    · simp only [validLoop, List.isEmpty_cons, Bool.false_eq_true, if_false] at hval
      by_cases hv : (DecodeRune (b :: t)).1 = RuneError ∧ (DecodeRune (b :: t)).2 = 1
      · rw [if_pos hv] at hval; exact absurd hval (by simp)
      · rw [if_neg hv] at hval
        obtain ⟨_, hn, hout, hn1⟩ := step_roundtrip b t [] hv
        rw [← hn] at hval
        have hstep := fun u => (step_roundtrip b t u hv).1
        have hloop : appendStringLoop (fuel + 1) (b :: t) =
            (appendStringStep (b :: t)).1 ++
              appendStringLoop fuel ((b :: t).drop (appendStringStep (b :: t)).2) := by
          simp only [appendStringLoop, List.isEmpty_cons, Bool.false_eq_true, if_false]
        rw [hloop] at hf2 ⊢
        rw [List.length_append] at hf2
        obtain ⟨f2, rfl⟩ : ∃ f2, fuel2 = f2 + 1 := ⟨fuel2 - 1, by omega⟩
        have hdrop : ((b :: t).drop (appendStringStep (b :: t)).2).length ≤ fuel := by
          rw [List.length_drop]; simp only [List.length_cons] at hlen ⊢; omega
        have hrec := ih _ hdrop hval f2 (by omega)
        have hne : ((appendStringStep (b :: t)).1 ++
              appendStringLoop fuel ((b :: t).drop (appendStringStep (b :: t)).2)).isEmpty
            = false := by
          rcases hx : (appendStringStep (b :: t)).1 with _ | ⟨x, xs⟩
          · rw [hx] at hout; simp at hout
          · rfl
        simp only [unquoteLoop, hne, Bool.false_eq_true, if_false, hstep, List.drop_left,
          hrec, Option.map_some', List.take_append_drop]


/-! ## Lemmas: the bound of the encoder loop -/

/-- Every iteration of the loop of `appendString` consumes at least one byte. -/
theorem appendStringStep_pos (b : Nat) (t : Bytes) : 1 ≤ (appendStringStep (b :: t)).2 := by
  by_cases hb : b < 0x80
  · rw [(unquoteStep_ascii b t [] hb).2]
  · by_cases hv : (DecodeRune (b :: t)).1 = RuneError ∧ (DecodeRune (b :: t)).2 = 1
    · unfold appendStringStep
      simp only [hb, if_false, DecodeRune_take]
      rw [if_pos hv]
    · exact (unquoteStep_multi b t [] hb hv).2.2.2

/-- The bound of `appendStringLoop` is never reached: any fuel of at least
the length of the source gives the same output. -/
theorem appendStringLoop_fuel :
    ∀ (fuel1 fuel2 : Nat) (s : Bytes), s.length ≤ fuel1 → s.length ≤ fuel2 →
      appendStringLoop fuel1 s = appendStringLoop fuel2 s := by
  intro fuel1
  induction fuel1 with
  | zero =>
    intro fuel2 s h1 _
    have hs : s = [] := List.length_eq_zero.mp (by omega)
    subst hs
    cases fuel2 <;> simp [appendStringLoop]
  | succ fuel1 ih =>
    intro fuel2 s h1 h2
    rcases s with _ | ⟨b, t⟩
    · cases fuel2 <;> simp [appendStringLoop]
    · obtain ⟨f2, rfl⟩ : ∃ f2, fuel2 = f2 + 1 := ⟨fuel2 - 1, by simp at h2; omega⟩
      have hpos := appendStringStep_pos b t
      have hd : ((b :: t).drop (appendStringStep (b :: t)).2).length ≤ t.length := by
        rw [List.length_drop]; simp only [List.length_cons]; omega
      simp only [List.length_cons] at h1 h2
      simp only [appendStringLoop, List.isEmpty_cons, Bool.false_eq_true, if_false]
      rw [ih f2 _ (by omega) (by omega)]


/-! ## Lemmas: the scanner on what `appendString` writes -/

theorem scan_plain (x : Nat) (rest : Bytes) (h1 : ¬ x = 34) (h2 : ¬ x = 92) (h3 : ¬ x < 0x20) :
    scanStringLit .inString (x :: rest)
      = (scanStringLit .inString rest).map (fun y => (x :: y.1, y.2)) := by
  simp only [scanStringLit, h1, h2, h3, if_false]

theorem scan_esc (e : Nat) (rest : Bytes)
    (he : e = 98 ∨ e = 102 ∨ e = 110 ∨ e = 114 ∨ e = 116 ∨ e = 92 ∨ e = 47 ∨ e = 34) :
    scanStringLit .inString (92 :: e :: rest)
      = (scanStringLit .inString rest).map (fun y => (92 :: e :: y.1, y.2)) := by
  simp only [scanStringLit, he, if_true, Option.map_map]
  rfl

theorem scan_u4 (c0 c1 c2 c3 : Nat) (rest : Bytes) (h0 : isHexDigit c0 = true)
    (h1 : isHexDigit c1 = true) (h2 : isHexDigit c2 = true) (h3 : isHexDigit c3 = true) :
    scanStringLit .inString (92 :: 117 :: c0 :: c1 :: c2 :: c3 :: rest)
      = (scanStringLit .inString rest).map
          (fun y => (92 :: 117 :: c0 :: c1 :: c2 :: c3 :: y.1, y.2)) := by
  simp [scanStringLit, h0, h1, h2, h3, Option.map_map]
  rfl

/-- The scanner passes over what `appendString` writes for one character and
stays inside the string. -/
theorem scan_step (b : Nat) (t u : Bytes) :
    scanStringLit .inString ((appendStringStep (b :: t)).1 ++ u)
      = (scanStringLit .inString u).map
          (fun y => ((appendStringStep (b :: t)).1 ++ y.1, y.2)) := by
  have hd : isHexDigit 48 = true := rfl
  by_cases hb : b < 0x80
  · unfold appendStringStep
    simp only [hb, if_true]
    split_ifs with h1 h2 h3 h4 h5 h6 h7
    · simp only [htmlSafeSet, Bool.and_eq_true, decide_eq_true_eq, Bool.not_eq_true',
        Bool.or_eq_false_iff, beq_eq_false_iff_ne, ne_eq] at h1
      exact scan_plain b u (by omega) (by omega) (by omega)
    · exact scan_esc b u (by omega)
    · exact scan_esc 98 u (by omega)
    · exact scan_esc 102 u (by omega)
    · exact scan_esc 110 u (by omega)
    · exact scan_esc 114 u (by omega)
    · exact scan_esc 116 u (by omega)
    · exact scan_u4 48 48 _ _ u hd hd (hex_lt (b / 16) (by omega)).2
        (hex_lt (b % 16) (by omega)).2
  · unfold appendStringStep
    simp only [hb, if_false, DecodeRune_take]
    by_cases hv : (DecodeRune (b :: t)).1 = RuneError ∧ (DecodeRune (b :: t)).2 = 1
    · rw [if_pos hv]
      exact scan_u4 102 102 102 100 u rfl rfl rfl rfl
    · rw [if_neg hv]
      by_cases hc : (DecodeRune (b :: t)).1 = 0x2028 ∨ (DecodeRune (b :: t)).1 = 0x2029
      · rw [if_pos hc]
        exact scan_u4 50 48 50 _ u rfl rfl rfl
          (hex_lt ((DecodeRune (b :: t)).1 % 16) (by omega)).2
      · rw [if_neg hc]
        simp only
        rcases DecodeRune_shape b t hb hv with
          ⟨b1, t1, rfl, h0, h1, h2, h3⟩ | ⟨b1, b2, t1, rfl, h0, h1, h2, h3, h4, h5, h6, h7⟩ |
          ⟨b1, b2, b3, t1, rfl, h0, h1, h2, h3, h4, h5, h6, h7, h8, h9⟩
        · rw [DecodeRune_two b b1 t1 h0 h1 h2 h3]
          show scanStringLit .inString (b :: b1 :: u) = _
          rw [scan_plain b _ (by omega) (by omega) (by omega),
            scan_plain b1 _ (by omega) (by omega) (by omega), Option.map_map]
          rfl
        · rw [DecodeRune_three b b1 b2 t1 h0 h1 h2 h3 h4 h5 h6 h7]
          show scanStringLit .inString (b :: b1 :: b2 :: u) = _
          rw [scan_plain b _ (by omega) (by omega) (by omega),
            scan_plain b1 _ (by omega) (by omega) (by omega),
            scan_plain b2 _ (by omega) (by omega) (by omega), Option.map_map, Option.map_map]
          rfl
        · rw [DecodeRune_four b b1 b2 b3 t1 h0 h1 h2 h3 h4 h5 h6 h7 h8 h9]
          show scanStringLit .inString (b :: b1 :: b2 :: b3 :: u) = _
          rw [scan_plain b _ (by omega) (by omega) (by omega),
            scan_plain b1 _ (by omega) (by omega) (by omega),
            scan_plain b2 _ (by omega) (by omega) (by omega),
            scan_plain b3 _ (by omega) (by omega) (by omega), Option.map_map, Option.map_map,
            Option.map_map]
          rfl

/-- The scanner finds the end of the literal `appendString` wrote. -/
theorem scan_appendStringLoop :
    ∀ (fuel : Nat) (s rest : Bytes),
      scanStringLit .inString (appendStringLoop fuel s ++ 34 :: rest)
        = some (appendStringLoop fuel s, rest) := by
  intro fuel
  induction fuel with
  | zero => intro s rest; simp [appendStringLoop, scanStringLit]
  | succ fuel ih =>
    intro s rest
    rcases s with _ | ⟨b, t⟩
    · simp [appendStringLoop, scanStringLit]
    · simp only [appendStringLoop, List.isEmpty_cons, Bool.false_eq_true, if_false,
        List.append_assoc]
      rw [scan_step, ih]
      rfl

/-- A string token written by `appendString` for a valid UTF-8 string is read
back as that string, whatever follows it. -/
theorem readString_appendString (s rest : Bytes) (hs : utf8Valid s = true) :
    readString (appendString s ++ rest) = some (s, rest) := by
  have h1 : appendString s ++ rest = 34 :: (appendStringLoop s.length s ++ 34 :: rest) := by
    simp [appendString]
  rw [h1]
  simp only [readString, if_true, scan_appendStringLoop, unquoteBytes]
  rw [unquoteLoop_appendStringLoop s.length s (le_refl _) hs _ (le_refl _)]


/-! ## Lemmas: decoding an encoded struct -/

theorem skipSpace_quote (x : Bytes) : skipSpace (34 :: x) = 34 :: x := rfl

theorem skipSpace_colon (x : Bytes) : skipSpace (58 :: x) = 58 :: x := rfl

theorem skipSpace_comma (x : Bytes) : skipSpace (44 :: x) = 44 :: x := rfl

theorem skipSpace_brace (x : Bytes) : skipSpace (125 :: x) = 125 :: x := rfl

theorem skipSpace_appendString (v rest : Bytes) :
    skipSpace (appendString v ++ rest) = appendString v ++ rest := rfl

theorem structEncodeLoop_length (fs : List (Bytes × Bytes)) :
    ∀ next, fs.length < (structEncodeLoop next fs).length := by
  induction fs with
  | nil => intro next; simp only [structEncodeLoop]; split_ifs <;> simp [ascii]
  | cons f fs ih =>
    intro next
    obtain ⟨name, v⟩ := f
    have := ih 44
    simp only [structEncodeLoop, List.length_cons, List.length_append]
    omega

/-- The members written by `structEncoder.encode` are read back in order:
names that `appendString` leaves unescaped and values that are valid UTF-8. -/
theorem readMembers_structEncodeLoop (fs : List (Bytes × Bytes)) :
    ∀ (name v rest : Bytes) (fuel : Nat), fs.length < fuel →
      appendString name = 34 :: name ++ [34] → utf8Valid name = true → utf8Valid v = true →
      (∀ f ∈ fs, appendString f.1 = 34 :: f.1 ++ [34] ∧ utf8Valid f.1 = true ∧
        utf8Valid f.2 = true) →
      readMembers fuel
          ((34 :: name ++ ascii "\":") ++ appendString v ++ structEncodeLoop 44 fs ++ rest)
        = some ((name, v) :: fs, rest) := by
  induction fs with
  | nil =>
    intro name v rest fuel hfuel hname hnv hv _
    obtain ⟨f, rfl⟩ : ∃ f, fuel = f + 1 := ⟨fuel - 1, by simp at hfuel; omega⟩
    have hsplit : (34 :: name ++ ascii "\":") ++ appendString v ++ structEncodeLoop 44 [] ++ rest
        = appendString name ++ (58 :: (appendString v ++ (125 :: rest))) := by
      rw [hname]; simp [structEncodeLoop, ascii]
    rw [hsplit]
    simp only [readMembers, readString_appendString name _ hnv, skipSpace_colon,
      skipSpace_appendString, readString_appendString v _ hv, skipSpace_brace]
    simp
  | cons f2 fs ih =>
    intro name v rest fuel hfuel hname hnv hv hfs
    obtain ⟨n2, v2⟩ := f2
    obtain ⟨f, rfl⟩ : ∃ f, fuel = f + 1 := ⟨fuel - 1, by simp at hfuel; omega⟩
    have h2 := hfs (n2, v2) (List.mem_cons_self _ _)
    have hrec := ih n2 v2 rest f (by simp at hfuel; omega) h2.1 h2.2.1 h2.2.2
      (fun g hg => hfs g (List.mem_cons_of_mem _ hg))
    have hsplit : (34 :: name ++ ascii "\":") ++ appendString v
          ++ structEncodeLoop 44 ((n2, v2) :: fs) ++ rest
        = appendString name ++ (58 :: (appendString v ++ (44 ::
            ((34 :: n2 ++ ascii "\":") ++ appendString v2 ++ structEncodeLoop 44 fs ++ rest)))) := by
      rw [hname]; simp [structEncodeLoop, ascii]
    rw [hsplit]
    simp only [readMembers, readString_appendString name _ hnv, skipSpace_colon,
      skipSpace_appendString, readString_appendString v _ hv, skipSpace_comma]
    simp only [if_true, List.cons_append, skipSpace_quote]
    simp only [List.cons_append] at hrec
    rw [hrec]
    rfl

/-- Decoding what `structEncoder.encode` wrote for a struct of string fields
gives back the names and the values. -/
theorem decodeObject_structEncode (name v : Bytes) (fs : List (Bytes × Bytes)) (rest : Bytes)
    (hname : appendString name = 34 :: name ++ [34]) (hnv : utf8Valid name = true)
    (hv : utf8Valid v = true)
    (hfs : ∀ f ∈ fs, appendString f.1 = 34 :: f.1 ++ [34] ∧ utf8Valid f.1 = true ∧
        utf8Valid f.2 = true) :
    decodeObject (structEncode ((name, v) :: fs) ++ rest) = some ((name, v) :: fs, rest) := by
  have hlen := structEncodeLoop_length fs 44
  have hdata : structEncode ((name, v) :: fs) ++ rest
      = 123 :: 34 :: (name ++ ascii "\":" ++ appendString v ++ structEncodeLoop 44 fs ++ rest) := by
    simp [structEncode, structEncodeLoop]
  have hmem := readMembers_structEncodeLoop fs name v rest
    (structEncode ((name, v) :: fs) ++ rest).length
    (by rw [hdata]; simp only [List.length_cons, List.length_append]; omega) hname hnv hv hfs
  rw [hdata] at hmem ⊢
  simp only [decodeObject, skipSpace_quote, List.length_cons]
  have e1 : skipSpace (123 :: 34 ::
      (name ++ ascii "\":" ++ appendString v ++ structEncodeLoop 44 fs ++ rest))
      = 123 :: 34 :: (name ++ ascii "\":" ++ appendString v ++ structEncodeLoop 44 fs ++ rest) :=
    rfl
  rw [e1]
  simp only [if_true, skipSpace_quote]
  rw [if_neg (by decide)]
  simpa using hmem


/-! ## Lemmas: the names of `version.Info` -/

/-- The JSON names of `version.Info` need no escaping and are valid UTF-8. -/
theorem info_names_plain :
    ∀ n ∈ [ascii "tag", ascii "commit", ascii "build_time", ascii "go_version"],
      appendString n = 34 :: n ++ [34] ∧ utf8Valid n = true := by
  decide

/-! ## Claim C1 -/

/-- C1, as stated, fails: the body `Healthz` writes to a fresh recorder is not
the 15 bytes of the JSON object alone, a newline byte follows them. -/
theorem C1_body_not_bare_object :
    ¬ ((exec (recorderWriter detectPlain) (handlers.Healthz getHealthz) NewRecorder []).1.Body
        = ascii "\x7b\"status\":\"ok\"\x7d") := by
  decide

/-- C1, amended: for every request and every recorder whose header is not
yet written, `Healthz` appends to the body exactly the bytes of the object
with status ok followed by one newline byte, and `Readyz` exactly those of
the object with status ready followed by one newline byte. -/
theorem C1_bodies (detect : Bytes → Bytes) (r : Request) (rw : ResponseRecorder)
    (logs : List LogRecord) (h : rw.wroteHeader = false) :
    (exec (recorderWriter detect) (handlers.Healthz r) rw logs).1.Body
        = rw.Body ++ ascii "\x7b\"status\":\"ok\"\x7d\n" ∧
    (exec (recorderWriter detect) (handlers.Readyz r) rw logs).1.Body
        = rw.Body ++ ascii "\x7b\"status\":\"ready\"\x7d\n" := by
  constructor
  · rw [Healthz_exec, writeJSON_recorder_ok detect 200 _ _ marshal_ok rw _ h bodyAllowed_200]
    rfl
  · rw [Readyz_exec, writeJSON_recorder_ok detect 200 _ _ marshal_ready rw _ h bodyAllowed_200]
    rfl

/-- C1, amended, at the fresh recorder of the tests: the bodies are the
objects followed by one newline byte and nothing else. -/
theorem C1_bodies_witness :
    NewRecorder.wroteHeader = false ∧
    (exec (recorderWriter detectPlain) (handlers.Healthz getHealthz) NewRecorder []).1.Body
        = [] ++ ascii "\x7b\"status\":\"ok\"\x7d\n" ∧
    (exec (recorderWriter detectPlain) (handlers.Readyz getHealthz) NewRecorder []).1.Body
        = [] ++ ascii "\x7b\"status\":\"ready\"\x7d\n" :=
  ⟨rfl, C1_bodies detectPlain getHealthz NewRecorder [] rfl⟩

/-! ## Claim C2 -/

/-- C2: for every request, every value of the build metadata and every
recorder whose header is not yet written, each of `Healthz`, `Readyz` and
`Info` sends status 200 with the single `Content-Type` value
`application/json`. -/
theorem C2_status_and_content_type (detect : Bytes → Bytes) (vars : version.Vars)
    (runtimeVersion : Bytes) (r : Request) (rw : ResponseRecorder) (logs : List LogRecord)
    (h : rw.wroteHeader = false) :
    sentJSON (exec (recorderWriter detect) (handlers.Healthz r) rw logs).1 200 ∧
    sentJSON (exec (recorderWriter detect) (handlers.Readyz r) rw logs).1 200 ∧
    sentJSON (exec (recorderWriter detect)
      (handlers.Info vars runtimeVersion r) rw logs).1 200 :=
  handlers_sentJSON detect vars runtimeVersion r rw logs h

/-- C2 at the fresh recorder of the tests and the default build metadata. -/
theorem C2_status_and_content_type_witness :
    NewRecorder.wroteHeader = false ∧
    sentJSON (exec (recorderWriter detectPlain) (handlers.Healthz getHealthz) NewRecorder []).1
      200 ∧
    sentJSON (exec (recorderWriter detectPlain) (handlers.Readyz getHealthz) NewRecorder []).1
      200 ∧
    sentJSON (exec (recorderWriter detectPlain)
      (handlers.Info version.defaults (ascii "go1.22.0") getHealthz) NewRecorder []).1 200 :=
  ⟨rfl, C2_status_and_content_type detectPlain version.defaults (ascii "go1.22.0") getHealthz
    NewRecorder [] rfl⟩


/-! ## Claim C3 -/

/-- C3 fails as stated: with `version.Tag` holding the byte 0xFF, decoding
the body of `Info` yields for `tag` the three bytes of U+FFFD, not the
current value of the variable. -/
theorem C3_invalid_utf8_not_echoed :
    decodedTag rawTagVars (ascii "go1.22.0") = some (some [0xEF, 0xBF, 0xBD]) ∧
    decodedTag rawTagVars (ascii "go1.22.0") ≠ some (some rawTagVars.Tag) := by
  decide

/-- C3, amended: for all values of `version.Tag`, `version.Commit` and
`version.BuildTime` that are valid UTF-8 at the moment of the call (and a
runtime version that is valid UTF-8 and not empty), the body `Info` writes
to a recorder with no header and no body written yet decodes to a JSON
object with exactly the keys tag, commit, build_time and go_version, in which
tag, commit and build_time are those three current values and go_version is
not empty; one newline follows the object. -/
theorem C3_info_body (detect : Bytes → Bytes) (vars : version.Vars) (runtimeVersion : Bytes)
    (r : Request) (rw : ResponseRecorder) (logs : List LogRecord)
    (hT : utf8Valid vars.Tag = true) (hC : utf8Valid vars.Commit = true)
    (hB : utf8Valid vars.BuildTime = true) (hG : utf8Valid runtimeVersion = true)
    (hne : runtimeVersion ≠ []) (hw : rw.wroteHeader = false) (hbody : rw.Body = []) :
    ∃ gv, gv ≠ [] ∧
      decodeObject (exec (recorderWriter detect)
          (handlers.Info vars runtimeVersion r) rw logs).1.Body
        = some ([(ascii "tag", vars.Tag), (ascii "commit", vars.Commit),
                 (ascii "build_time", vars.BuildTime), (ascii "go_version", gv)], [10]) := by
  refine ⟨runtimeVersion, hne, ?_⟩
  rw [Info_exec, writeJSON_recorder_ok detect 200 (.Info (version.Get vars runtimeVersion)) _ rfl
    rw _ hw bodyAllowed_200]
  simp only [hbody, List.nil_append, version.Get]
  have hn := info_names_plain
  simp only [List.mem_cons, List.mem_singleton, List.not_mem_nil, or_false, forall_eq_or_imp,
    forall_eq] at hn
  obtain ⟨h1, h2, h3, h4⟩ := hn
  apply decodeObject_structEncode _ _ _ _ h1.1 h1.2 hT
  intro f hf
  simp only [List.mem_cons, List.mem_singleton, List.not_mem_nil, or_false] at hf
  rcases hf with rfl | rfl | rfl
  · exact ⟨h2.1, h2.2, hC⟩
  · exact ⟨h3.1, h3.2, hB⟩
  · exact ⟨h4.1, h4.2, hG⟩

/-- C3, amended, at the build metadata of `TestInfo_ReturnsBuildMetadata`. -/
theorem C3_info_body_witness :
    ∃ gv, gv ≠ [] ∧
      decodeObject (exec (recorderWriter detectPlain)
          (handlers.Info testVars (ascii "go1.22.0") getInfo) NewRecorder []).1.Body
        = some ([(ascii "tag", ascii "v0.1.0-test"), (ascii "commit", ascii "deadbeef"),
                 (ascii "build_time", ascii "2026-01-01T00:00:00Z"),
                 (ascii "go_version", gv)], [10]) :=
  C3_info_body detectPlain testVars (ascii "go1.22.0") getInfo NewRecorder []
    (by decide) (by decide) (by decide) (by decide) (by decide) rfl rfl


/-! ## Claim C4 -/

/-- C4 fails on the code: for the handler that calls `WriteHeader(200)` and
then `WriteHeader(500)`, the client receives 200 and the record says 500;
for the handler that writes body bytes and then calls `WriteHeader(404)`,
the client receives 200 and the record says 404. -/
theorem C4_logged_status_differs :
    (handlers.RequestLogger 0 1 twiceHandler (recorderWriter detectPlain) getHealthz
        NewRecorder []).1.Code = 200 ∧
    (handlers.RequestLogger 0 1 twiceHandler (recorderWriter detectPlain) getHealthz
        NewRecorder []).2 = [handlers.requestRecord getHealthz 500 1] ∧
    (handlers.RequestLogger 0 1 lateHandler (recorderWriter detectPlain) getHealthz
        NewRecorder []).1.Code = 200 ∧
    (handlers.RequestLogger 0 1 lateHandler (recorderWriter detectPlain) getHealthz
        NewRecorder []).2 = [handlers.requestRecord getHealthz 404 1] := by
  decide

/-! ## Claim C5 -/

/-- C5 fails as stated: the handler that type-asserts `http.Flusher` sends
200 and its data when it is invoked directly on a recorder, and behind
`RequestLogger`, where the assertion fails, it sends 500 and the error text
to the same recorder. -/
theorem C5_flusher_hidden :
    (serveProbing streamHandler (recorderDyn detectPlain) getHealthz NewRecorder []).1.Code
      = 200 ∧
    (serveProbing streamHandler (recorderDyn detectPlain) getHealthz NewRecorder []).1.Body
      = ascii "data: tick\n\n" ∧
    (handlers.RequestLoggerProbing 0 1 streamHandler (recorderDyn detectPlain) getHealthz
        NewRecorder []).1.Code = 500 ∧
    (handlers.RequestLoggerProbing 0 1 streamHandler (recorderDyn detectPlain) getHealthz
        NewRecorder []).1.Body = ascii "streaming unsupported\n" ∧
    (handlers.RequestLoggerProbing 0 1 streamHandler (recorderDyn detectPlain) getHealthz
        NewRecorder []).1
      ≠ (serveProbing streamHandler (recorderDyn detectPlain) getHealthz NewRecorder []).1 := by
  decide

/-- C5, amended: for every handler that reaches its writer only through
`Header`, `WriteHeader` and `Write`, every request and every response writer,
the state in which `RequestLogger(logger)(H)` leaves the underlying writer
(status, headers, body) is the state in which `H` itself leaves it; a handler
that type-asserts `http.Flusher` leaves the underlying writer, behind the
wrapper, in the state in which it leaves that writer when the assertion
fails, which is what it does directly on every writer without a `Flush`
method. -/
theorem C5_wrapper_transparent {σ : Type} (W : ResponseWriter σ) (H : HandlerFunc)
    (P : ProbingHandlerFunc) (D : DynWriter σ)
    (r : Request) (w : σ) (logs : List LogRecord) (start finish : Int) :
    (handlers.RequestLogger start finish H W r w logs).1 = (exec W (H r) w logs).1 ∧
    (handlers.RequestLoggerProbing start finish P D r w logs).1
      = (exec D.methods (P r false) w logs).1 ∧
    (handlers.RequestLoggerProbing start finish P { methods := W, isFlusher := false }
        r w logs).1
      = (serveProbing P { methods := W, isFlusher := false } r w logs).1 := by
  refine ⟨?_, ?_, ?_⟩
  · exact (exec_responseRecorder W (H r) { ResponseWriter := w, statusCode := 200 } logs).1
  · exact (exec_responseRecorder D.methods (P r false)
      { ResponseWriter := w, statusCode := 200 } logs).1
  · exact (exec_responseRecorder W (P r false)
      { ResponseWriter := w, statusCode := 200 } logs).1

/-! ## Claim C6 -/

/-- C6: for every handler, every request and every writer, the wrapped
handler has the effects of one run of `H` on the writer and on the log, and
then appends exactly one record, with message "request completed" and with
the method, URL path and remote address of the request. -/
theorem C6_one_record {σ : Type} (W : ResponseWriter σ) (H : HandlerFunc)
    (r : Request) (w : σ) (logs : List LogRecord) (start finish : Int) :
    (handlers.RequestLogger start finish H W r w logs).1 = (exec W (H r) w logs).1 ∧
    ∃ rcd : LogRecord,
      (handlers.RequestLogger start finish H W r w logs).2
          = (exec W (H r) w logs).2 ++ [rcd] ∧
      rcd.msg = ascii "request completed" ∧
      rcd.attrs.lookup (ascii "method") = some (.String r.Method) ∧
      rcd.attrs.lookup (ascii "path") = some (.String r.URL.Path) ∧
      rcd.attrs.lookup (ascii "remote_addr") = some (.String r.RemoteAddr) := by
  have hsim := exec_responseRecorder W (H r) { ResponseWriter := w, statusCode := 200 } logs
  refine ⟨hsim.1,
    handlers.requestRecord r
      (exec (handlers.responseRecorder.writer W) (H r)
        { ResponseWriter := w, statusCode := 200 } logs).1.statusCode (finish - start),
    ?_, rfl, rfl, rfl, rfl⟩
  simp only [handlers.RequestLogger]
  rw [hsim.2]

/-! ## Claim C7 -/

/-- C7 fails on the code: `writeJSON` with status 200 and a value that cannot
be encoded, on a fresh recorder, ends with status 200 and the sent
`Content-Type` still `application/json`; only the body is the error text.
On the `errorWriter` of the tests, whose `WriteHeader` overwrites, the status
ends as 500. -/
theorem C7_status_stays :
    (exec (recorderWriter detectPlain) (handlers.writeJSON 200 .unsupported)
        NewRecorder []).1.Code = 200 ∧
    (exec (recorderWriter detectPlain) (handlers.writeJSON 200 .unsupported)
        NewRecorder []).1.snapHeader.lookup (ascii "Content-Type")
      = some [ascii "application/json"] ∧
    (exec (recorderWriter detectPlain) (handlers.writeJSON 200 .unsupported)
        NewRecorder []).1.Body = ascii "\x7b\"error\":\"internal server error\"\x7d\n" ∧
    (exec errorWriterWriter (handlers.writeJSON 200 .unsupported)
        { header := [], statusCode := 0 } []).1.statusCode = 500 := by
  decide

/-! ## Claim C8 -/

/-- C8 fails on the code as stated: the request `GET /%68ealthz` has method
GET and URL path `/healthz`, and the router answers it with 404. -/
theorem C8_escaped_path_not_found :
    getEscapedHealthz.Method = ascii "GET" ∧
    getEscapedHealthz.URL.Path = ascii "/healthz" ∧
    (main.newRouter version.defaults (ascii "go1.22.0") 0 1 (recorderWriter detectPlain)
        getEscapedHealthz NewRecorder []).1.Code = 404 := by
  decide

/-- C8, amended: for a GET request, the router of `newRouter` runs, wrapped by
the request-logging middleware, the handler that the table gives for the
routing path (`URL.RawPath` when set, `URL.Path` otherwise): `Healthz`,
`Readyz` or `Info` for `/healthz`, `/readyz`, `/info`, the not-found handler
for every other one; on a recorder whose header is not yet written the status
is 200 in the first three cases and 404 in the last. -/
theorem C8_routing (detect : Bytes → Bytes) (vars : version.Vars) (runtimeVersion : Bytes)
    (start finish : Int) (r : Request) (rw : ResponseRecorder) (logs : List LogRecord)
    (hm : r.Method = ascii "GET") (hw : rw.wroteHeader = false) :
    main.newRouter vars runtimeVersion start finish (recorderWriter detect) r rw logs
      = handlers.RequestLogger start finish
          (specDispatch vars runtimeVersion (chi.routePath r)) (recorderWriter detect) r rw logs ∧
    (main.newRouter vars runtimeVersion start finish (recorderWriter detect) r rw logs).1.Code
      = specStatus (chi.routePath r) := by
  have hd : main.newRouter vars runtimeVersion start finish (recorderWriter detect) r rw logs
      = handlers.RequestLogger start finish
          (specDispatch vars runtimeVersion (chi.routePath r)) (recorderWriter detect) r rw
          logs := by
    simp only [main.newRouter, handlers.RequestLogger, routeHTTP_get vars runtimeVersion r hm]
  refine ⟨hd, ?_⟩
  rw [hd, RequestLogger_fst]
  have c2 := handlers_sentJSON detect vars runtimeVersion r rw logs hw
  unfold specDispatch specStatus
  by_cases p1 : chi.routePath r = ascii "/healthz"
  · simp only [p1, if_true, true_or]; exact c2.1.2.1
  · by_cases p2 : chi.routePath r = ascii "/readyz"
    · simp only [p1, p2, if_true, if_false, true_or, or_true]; exact c2.2.1.2.1
    · by_cases p3 : chi.routePath r = ascii "/info"
      · simp only [p1, p2, p3, if_true, if_false, or_true]; exact c2.2.2.2.1
      · simp only [p1, p2, p3, if_false, or_self]
        exact NotFound_code detect r rw logs hw

/-- C8, amended, at the request `GET /healthz` on a fresh recorder. -/
theorem C8_routing_witness :
    getHealthz.Method = ascii "GET" ∧ NewRecorder.wroteHeader = false ∧
    (main.newRouter version.defaults (ascii "go1.22.0") 0 1 (recorderWriter detectPlain)
        getHealthz NewRecorder []).1.Code = specStatus (chi.routePath getHealthz) :=
  ⟨rfl, rfl, (C8_routing detectPlain version.defaults (ascii "go1.22.0") 0 1 getHealthz
    NewRecorder [] rfl rfl).2⟩


/-! ## Claim C9 -/

/-- C9 fails on the code: when `ListenAndServe` returns a listen error first,
`run` returns the wrapped error and has made no call of `srv.Shutdown`, with
the 15-second deadline or any other. -/
theorem C9_no_shutdown_call :
    (main.run (.listenReturned (some (.other (ascii "listen tcp: address 99999: invalid port"))))
        (fun _ => none)).shutdownCalls = [] ∧
    ¬ ((main.run (.listenReturned (some (.other (ascii "listen tcp: address 99999: invalid port"))))
          (fun _ => none)).shutdownCalls = [main.shutdownTimeout]) := by
  decide

/-- C9, amended: when `ListenAndServe` ends first with an error that is not
`http.ErrServerClosed`, `run` returns at once, without calling `srv.Shutdown`
and without logging, the error that wraps the listen error with the text
"server listen: " in front. -/
theorem C9_listen_error (err : GoError) (Shutdown : Int → Option GoError)
    (h : err.IsServerClosed = false) :
    main.run (.listenReturned (some err)) Shutdown =
      { err := some (.wrap (ascii "server listen: ") err), shutdownCalls := [], logs := [] } := by
  simp [main.run, main.errChReceive, errorsIsServerClosed, h]

/-- C9, amended, at the error of a server bound to port 99999. -/
theorem C9_listen_error_witness :
    (GoError.other (ascii "listen tcp: address 99999: invalid port")).IsServerClosed = false ∧
    main.run (.listenReturned (some (.other (ascii "listen tcp: address 99999: invalid port"))))
        (fun _ => none) =
      { err := some (.wrap (ascii "server listen: ")
                (.other (ascii "listen tcp: address 99999: invalid port"))),
        shutdownCalls := [], logs := [] } :=
  ⟨rfl, C9_listen_error _ _ rfl⟩

/-! ## Claim C10 -/

/-- C10: when the context is cancelled first, `run` makes exactly one call of
`srv.Shutdown`, with a timeout of 15 seconds, returns nil exactly when that
call returns nil, and otherwise returns the error of that call wrapped with
the text "graceful shutdown: " in front. -/
theorem C10_cancel_shutdown (Shutdown : Int → Option GoError) :
    (main.run .cancelled Shutdown).shutdownCalls = [15 * 1000000000] ∧
    ((main.run .cancelled Shutdown).err = none ↔ Shutdown (15 * 1000000000) = none) ∧
    (main.run .cancelled Shutdown).err =
      (Shutdown (15 * 1000000000)).map (GoError.wrap (ascii "graceful shutdown: ")) := by
  simp only [main.run, main.runShutdown, main.shutdownTimeout]
  cases h : Shutdown (15 * 1000000000) <;> simp

/-! ## Claim C11 -/

/-- C11 fails as stated: with `PORT` set in the environment, to the empty
string, `envOrDefault("PORT", "8080")` returns the fallback `8080` and not the
value of the variable, and `start` builds the server for `:8080`. -/
theorem C11_empty_value_gives_fallback :
    emptyPortEnv (ascii "PORT") = some [] ∧
    main.envOrDefault emptyPortEnv (ascii "PORT") (ascii "8080") = ascii "8080" ∧
    main.envOrDefault emptyPortEnv (ascii "PORT") (ascii "8080") ≠ [] ∧
    (main.start emptyPortEnv none .cancelled (fun _ => none)).srv.Addr = ascii ":8080" := by
  decide

/-- C11, amended: for every key, fallback and environment, `envOrDefault`
returns the value of the variable when it is set to a non-empty string and
the fallback when it is not set or set to the empty string, so it returns the
fallback exactly when the variable is not set, is empty, or holds the
fallback itself; `start` takes the port as `envOrDefault("PORT", "8080")` in
the environment left by `godotenv.Load`, logs it and builds the server with
the address made of a colon and that port. -/
theorem C11_envOrDefault (env : Environ) (key fallback : Bytes)
    (dotenv : Option (Bytes → Option Bytes)) (ev : main.RunEvent)
    (Shutdown : Int → Option GoError) :
    main.envOrDefault env key fallback =
      (match env key with
       | some v => if v = [] then fallback else v
       | none => fallback) ∧
    (main.envOrDefault env key fallback = fallback ↔
      env key = none ∨ env key = some [] ∨ env key = some fallback) ∧
    (main.start env dotenv ev Shutdown).port =
      (match godotenvLoad dotenv env (ascii "PORT") with
       | some v => if v = [] then ascii "8080" else v
       | none => ascii "8080") ∧
    (main.start env dotenv ev Shutdown).srv.Addr =
      ascii ":" ++ (main.start env dotenv ev Shutdown).port := by
  have key_eq : ∀ (e : Environ) (k f : Bytes), main.envOrDefault e k f =
      (match e k with
       | some v => if v = [] then f else v
       | none => f) := by
    intro e k f
    unfold main.envOrDefault Getenv
    cases h : e k with
    | none => simp
    | some v => by_cases hv : v = [] <;> simp [hv]
  refine ⟨key_eq env key fallback, ?_, key_eq _ _ _, rfl⟩
  rw [key_eq]
  cases h : env key with
  | none => simp
  | some v =>
    by_cases hv : v = []
    · simp [hv]
    · simp only [hv, if_false, reduceCtorEq, false_or, Option.some.injEq]

end GitopsDemo
